import Mathlib

/-!
# hueplusplus: the time-pattern value and its wire-string codec

A shallow embedding of `src/src/TimePattern.cpp`, and of the request that
`Sensor::setStateAttribute` of `src/src/Sensor.cpp` sends.

Modelling conventions.

* `std::string` is a `List Char`; string literals of the source appear as
  `"...".toList`.
* `std::size_t` values are natural numbers reduced modulo `2 ^ 64`;
  `std::string::npos` is `2 ^ 64 - 1`.
* `int` values are `Int`; `std::stoi` checks the 32-bit range itself.
* `clock::duration` is the tick count of `std::chrono::system_clock::duration`
  as an `Int`; one tick is a nanosecond (`ticksPerSecond`).  No duration built
  by the code below from two-digit fields leaves the 64-bit range; the time
  point that `clock::from_time_t` builds from a `time_t` is reduced to 64 bits
  (`int64`).
* A C++ exception is the `error` side of `Except Exn`.
-/

namespace hueplusplus

/-! ## Exceptions -/

/-- The exceptions the translated code can raise.  `HueException` carries its
message; `invalid_argument` and `out_of_range` are the standard-library
exceptions of `std::stoi`, `std::string::substr` and `std::string::at`;
`buffer_overrun` marks a `sprintf` that writes past its destination array. -/
inductive Exn where
  | HueException (msg : List Char)
  | invalid_argument
  | out_of_range
  | buffer_overrun
  deriving DecidableEq, Repr

deriving instance DecidableEq for Except

/-! ## The standard-library string primitives the source calls -/

/-- The value of `std::string::npos`. -/
def npos : Nat := 2 ^ 64 - 1

/-- Reduction of a `std::size_t` computation. -/
def size_t (n : Int) : Nat := (n % 2 ^ 64).toNat

/-- The function `std::isdigit` in the "C" locale. -/
def isdigit (c : Char) : Bool := decide ('0'.toNat ≤ c.toNat ∧ c.toNat ≤ '9'.toNat)

/-- The function `std::isspace` in the "C" locale: space, `\t`, `\n`, `\v`,
`\f`, `\r`. -/
def isspace (c : Char) : Bool := decide (c.toNat = 32 ∨ (9 ≤ c.toNat ∧ c.toNat ≤ 13))

/-- Index of the first occurrence of `c` in `s`, counted from `i`; `npos` when
there is none. -/
def findFrom (c : Char) : List Char → Nat → Nat
  | [], _ => npos
  | x :: xs, i => if x = c then i else findFrom c xs (i + 1)

/-- The call `s.find(c, pos)`. -/
def find (s : List Char) (c : Char) (pos : Nat) : Nat :=
  if pos ≤ s.length then findFrom c (s.drop pos) pos else npos

/-- The call `s.substr(pos, n)`: throws `std::out_of_range` when `pos` exceeds
the size, otherwise the at most `n` characters from `pos` on. -/
def substr (s : List Char) (pos n : Nat) : Except Exn (List Char) :=
  if pos > s.length then .error .out_of_range else .ok ((s.drop pos).take n)

/-- The call `s.at(i)`. -/
def charAt (s : List Char) (i : Nat) : Except Exn Char :=
  match s.get? i with
  | some c => .ok c
  | none => .error .out_of_range

/-- Value of a run of decimal digits. -/
def digitsValue (ds : List Char) : Nat :=
  ds.foldl (fun acc c => 10 * acc + (c.toNat - '0'.toNat)) 0

/-- The function `std::stoi(s)` (base 10, no position output): leading
whitespace is skipped, one optional sign is read, then the longest run of
decimal digits; whatever follows is ignored.  No digit gives
`std::invalid_argument`, a value outside `int` gives `std::out_of_range`. -/
def stoi (s : List Char) : Except Exn Int :=
  let s1 := s.dropWhile isspace
  let neg := s1.head? = some '-'
  let s2 := if s1.head? = some '-' ∨ s1.head? = some '+' then s1.tail else s1
  let ds := s2.takeWhile isdigit
  if ds = [] then .error .invalid_argument
  else
    let v : Int := if neg then -(digitsValue ds : Int) else (digitsValue ds : Int)
    if v < -(2 ^ 31) ∨ v > 2 ^ 31 - 1 then .error .out_of_range else .ok v

/-- Decimal digits of a natural number, most significant first (`fuel` bounds
the number of digits). -/
def natDigits : Nat → Nat → List Char → List Char
  | 0, _, acc => acc
  | fuel + 1, n, acc =>
    let acc1 := Char.ofNat ('0'.toNat + n % 10) :: acc
    if n / 10 = 0 then acc1 else natDigits fuel (n / 10) acc1

/-- The function `std::to_string(int)`. -/
def to_string (n : Int) : List Char :=
  if n < 0 then '-' :: natDigits (n.natAbs + 1) n.natAbs []
  else natDigits (n.natAbs + 1) n.natAbs []

/-- One `%02d` conversion of `sprintf`: at least two characters, zero padded
(a negative number already has two). -/
def fmt02d (n : Int) : List Char :=
  let s := to_string n
  if s.length < 2 then '0' :: s else s

/-- The call `s.substr(pos)`, the suffix from `pos` on. -/
def substrFrom (s : List Char) (pos : Nat) : Except Exn (List Char) :=
  substr s pos npos

/-- The call `s.front()`; the source only makes it on a non-empty string. -/
def front (s : List Char) : Char := s.headD (Char.ofNat 0)

/-! ## Durations (`src/src/TimePattern.cpp`, lines 64-86) -/

/-- Ticks of `clock::duration` in one second. -/
def ticksPerSecond : Int := 1000000000

/-- The duration `std::chrono::seconds(n)` in ticks. -/
def seconds (n : Int) : Int := n * ticksPerSecond

/-- The duration `std::chrono::minutes(n)` in ticks. -/
def minutes (n : Int) : Int := n * (60 * ticksPerSecond)

/-- The duration `std::chrono::hours(n)` in ticks. -/
def hours (n : Int) : Int := n * (3600 * ticksPerSecond)

/-- The count `duration_cast<hours>(d).count()`, truncated toward zero. -/
def countHours (d : Int) : Int := Int.tdiv d (3600 * ticksPerSecond)

/-- The count `duration_cast<minutes>(d).count()`, truncated toward zero. -/
def countMinutes (d : Int) : Int := Int.tdiv d (60 * ticksPerSecond)

/-- The count `duration_cast<seconds>(d).count()`, truncated toward zero. -/
def countSeconds (d : Int) : Int := Int.tdiv d ticksPerSecond

/-- The function `durationTo_hh_mm_ss`.  The `sprintf` writes into
`char result[9]`: more than eight characters overrun the array. -/
def durationTo_hh_mm_ss (duration : Int) : Except Exn (List Char) :=
  if duration > hours 24 then
    .error (.HueException "Duration parameter longer than 1 day".toList)
  else
    let numH := countHours duration
    let duration1 := duration - hours numH
    let numM := countMinutes duration1
    let duration2 := duration1 - minutes numM
    let numS := countSeconds duration2
    let result := fmt02d numH ++ ':' :: (fmt02d numM ++ ':' :: fmt02d numS)
    if result.length > 8 then .error .buffer_overrun else .ok result

/-- The function `parseDuration`: the three fields are read at offsets 0, 3
and 7 (the operands of `+` are evaluated here from left to right). -/
def parseDuration (s : List Char) : Except Exn Int := do
  let h ← stoi (← substr s 0 2)
  let m ← stoi (← substr s 3 2)
  let sec ← stoi (← substr s 7 2)
  pure (hours h + minutes m + seconds sec)

/-! ## Timestamps (lines 33-62) -/

/-- The fields of `std::tm` that `parseTimestamp` sets before it calls
`std::mktime`. -/
structure Tm where
  tm_sec : Int
  tm_min : Int
  tm_hour : Int
  tm_mday : Int
  tm_mon : Int
  tm_year : Int
  tm_isdst : Int
  deriving DecidableEq, Repr

/-- Calendar year a `std::tm` denotes: `tm_year` counts years since 1900. -/
def Tm.calendarYear (tm : Tm) : Int := tm.tm_year + 1900

/-- Calendar month (1..12) a `std::tm` denotes: `tm_mon` counts months since
January. -/
def Tm.calendarMonth (tm : Tm) : Int := tm.tm_mon + 1

/-- The `std::tm` that `parseTimestamp` fills in and hands to `std::mktime`
(lines 51-59). -/
def parseTimestampTm (timestamp : List Char) : Except Exn Tm := do
  let tm_year ← stoi (← substr timestamp 0 4)
  let tm_mon ← stoi (← substr timestamp 5 2)
  let tm_mday ← stoi (← substr timestamp 8 2)
  let tm_hour ← stoi (← substr timestamp 11 2)
  let tm_min ← stoi (← substr timestamp 14 2)
  let tm_sec ← stoi (← substr timestamp 17 2)
  pure { tm_sec := tm_sec, tm_min := tm_min, tm_hour := tm_hour, tm_mday := tm_mday,
         tm_mon := tm_mon, tm_year := tm_year, tm_isdst := -1 }

/-- Reduction of a computation on `std::int64_t`, the representation of
`clock::duration` and `clock::time_point`: the value modulo `2 ^ 64` in the
range from `-2 ^ 63` to `2 ^ 63 - 1`. -/
def int64 (n : Int) : Int := (n + 2 ^ 63) % 2 ^ 64 - 2 ^ 63

/-- The call `clock::from_time_t`: a time point is its tick count since the
epoch, the seconds multiplied by `ticksPerSecond` in 64-bit arithmetic. -/
def from_time_t (t : Int) : Int := int64 (seconds t)

/-- The call `clock::to_time_t`. -/
def to_time_t (time : Int) : Int := countSeconds time

/-- The function `parseTimestamp`; the C library's `std::mktime` is a
parameter. -/
def parseTimestamp (mktime : Tm → Int) (timestamp : List Char) : Except Exn Int := do
  let tm ← parseTimestampTm timestamp
  pure (from_time_t (mktime tm))

/-- The text `std::strftime` produces for the format `"%FT%T"`, that is
`%Y-%m-%dT%H:%M:%S`: the year is `tm_year + 1900`, the month `tm_mon + 1`. -/
def strftime_FT (tm : Tm) : List Char :=
  to_string tm.calendarYear ++ '-' :: (fmt02d tm.calendarMonth ++ '-' :: (fmt02d tm.tm_mday ++
    'T' :: (fmt02d tm.tm_hour ++ ':' :: (fmt02d tm.tm_min ++ ':' :: fmt02d tm.tm_sec))))

/-- The function `timepointToTimestamp`; the C library's `std::localtime` is a
parameter.  `strftime` reports 0 when the text and its terminator do not fit
the 32-byte buffer. -/
def timepointToTimestamp (localtime : Int → Tm) (time : Int) : Except Exn (List Char) :=
  let ctime := to_time_t time
  let buf := strftime_FT (localtime ctime)
  if buf.length + 1 > 32 then .error (.HueException "strftime failed".toList)
  else .ok buf

/-! ## Weekdays (lines 110-224) -/

/-- The class `Weekdays`: its only member is the `int bitmask`. -/
structure Weekdays where
  bitmask : Int
  deriving DecidableEq, Repr

/-- The method `Weekdays::isNone`. -/
def Weekdays.isNone (w : Weekdays) : Bool := w.bitmask == 0

/-- The method `Weekdays::isAll`: `(1 << 7) - 1` is 127. -/
def Weekdays.isAll (w : Weekdays) : Bool := w.bitmask == 2 ^ 7 - 1

/-- The method `Weekdays::toString`. -/
def Weekdays.toString (w : Weekdays) : List Char :=
  let result := to_string w.bitmask
  if result.length < 3 then List.replicate (3 - result.length) '0' ++ result else result

/-- The method `Weekdays::unionWith`. -/
def Weekdays.unionWith (w other : Weekdays) : Weekdays :=
  { bitmask := Int.lor other.bitmask w.bitmask }

/-- The static method `Weekdays::none`: the default-constructed value, whose
bitmask is 0. -/
def Weekdays.none : Weekdays := { bitmask := 0 }

/-- The static method `Weekdays::all`. -/
def Weekdays.all : Weekdays := { bitmask := 2 ^ 7 - 1 }

/-- The method `Weekdays::isMonday`. -/
def Weekdays.isMonday (w : Weekdays) : Bool := Int.land w.bitmask 1 != 0

/-- The method `Weekdays::isTuesday`. -/
def Weekdays.isTuesday (w : Weekdays) : Bool := Int.land w.bitmask 2 != 0

/-- The method `Weekdays::isWednesday`. -/
def Weekdays.isWednesday (w : Weekdays) : Bool := Int.land w.bitmask 4 != 0

/-- The method `Weekdays::isThursday`. -/
def Weekdays.isThursday (w : Weekdays) : Bool := Int.land w.bitmask 8 != 0

/-- The method `Weekdays::isFriday`. -/
def Weekdays.isFriday (w : Weekdays) : Bool := Int.land w.bitmask 16 != 0

/-- The method `Weekdays::isSaturday`. -/
def Weekdays.isSaturday (w : Weekdays) : Bool := Int.land w.bitmask 32 != 0

/-- The method `Weekdays::isSunday`. -/
def Weekdays.isSunday (w : Weekdays) : Bool := Int.land w.bitmask 64 != 0

/-- Modelled from the spec: the constructor `Weekdays(int num)`, declared in
`TimePattern.h`, which is not among the sources.  It builds the set holding
the single day `num` (0 = Monday .. 6 = Sunday), the mask with bit `num`
set. -/
def Weekdays.ofDay (num : Nat) : Weekdays := { bitmask := 2 ^ num }

/-- The static method `Weekdays::monday`. -/
def Weekdays.monday : Weekdays := Weekdays.ofDay 0

/-- The static method `Weekdays::tuesday`. -/
def Weekdays.tuesday : Weekdays := Weekdays.ofDay 1

/-- The static method `Weekdays::wednesday`. -/
def Weekdays.wednesday : Weekdays := Weekdays.ofDay 2

/-- The static method `Weekdays::thursday`. -/
def Weekdays.thursday : Weekdays := Weekdays.ofDay 3

/-- The static method `Weekdays::friday`. -/
def Weekdays.friday : Weekdays := Weekdays.ofDay 4

/-- The static method `Weekdays::saturday`. -/
def Weekdays.saturday : Weekdays := Weekdays.ofDay 5

/-- The static method `Weekdays::sunday`. -/
def Weekdays.sunday : Weekdays := Weekdays.ofDay 6

/-- The static method `Weekdays::parse`. -/
def Weekdays.parse (s : List Char) : Except Exn Weekdays := do
  let n ← stoi s
  pure { bitmask := n }

/-! ## The four payloads (lines 88-108 and 226-349) -/

/-- The class `AbsoluteTime`: a time point and a random variation. -/
structure AbsoluteTime where
  base : Int
  variation : Int
  deriving DecidableEq, Repr

/-- The class `RecurringTime`. -/
structure RecurringTime where
  time : Int
  days : Weekdays
  variation : Int
  deriving DecidableEq, Repr

/-- The class `TimeInterval`. -/
structure TimeInterval where
  start : Int
  «end» : Int
  days : Weekdays
  deriving DecidableEq, Repr

/-- The class `Timer`. -/
structure Timer where
  expires : Int
  numExecutions : Int
  variation : Int
  deriving DecidableEq, Repr

/-- The method `AbsoluteTime::toString`. -/
def AbsoluteTime.toString (localtime : Int → Tm) (a : AbsoluteTime) : Except Exn (List Char) := do
  let result ← timepointToTimestamp localtime a.base
  if a.variation ≠ 0 then
    pure (result ++ 'A' :: (← durationTo_hh_mm_ss a.variation))
  else pure result

/-- The method `RecurringTime::toString`: `result` is built (and either call of
`durationTo_hh_mm_ss` may throw), the statement at line 256 returns
`std::string()`. -/
def RecurringTime.toString (r : RecurringTime) : Except Exn (List Char) := do
  let result := "W".toList
  let result := result ++ r.days.toString
  let result := result ++ "/".toList
  let result := result ++ (← durationTo_hh_mm_ss r.time)
  let _result ← if r.variation ≠ 0 then
      pure (result ++ 'A' :: (← durationTo_hh_mm_ss r.variation))
    else pure result
  pure []

/-- The method `TimeInterval::toString`. -/
def TimeInterval.toString (t : TimeInterval) : Except Exn (List Char) := do
  let result := if !t.days.isAll then "W".toList ++ t.days.toString ++ "/".toList else []
  let result := result ++ ['T']
  let result := result ++ (← durationTo_hh_mm_ss t.start)
  let result := result ++ "/T".toList
  let result := result ++ (← durationTo_hh_mm_ss t.«end»)
  pure result

/-- The method `Timer::isRecurring`. -/
def Timer.isRecurring (t : Timer) : Bool := t.numExecutions != 1

/-- The method `Timer::getNumberOfExecutions`. -/
def Timer.getNumberOfExecutions (t : Timer) : Int := t.numExecutions

/-- The method `Timer::getExpiryTime`. -/
def Timer.getExpiryTime (t : Timer) : Int := t.expires

/-- The method `Timer::getRandomVariation`. -/
def Timer.getRandomVariation (t : Timer) : Int := t.variation

/-- The method `Timer::toString`. -/
def Timer.toString (t : Timer) : Except Exn (List Char) := do
  let result :=
    if t.numExecutions ≠ 1 then
      let result := ['R']
      let result :=
        if t.numExecutions ≠ 0 then
          let s := to_string t.numExecutions
          (if s.length < 2 then result ++ ['0'] else result) ++ s
        else result
      result ++ ['/']
    else []
  let result := result ++ "PT".toList
  let result := result ++ (← durationTo_hh_mm_ss t.expires)
  if t.variation ≠ 0 then
    pure (result ++ 'A' :: (← durationTo_hh_mm_ss t.variation))
  else pure result

/-! ## The variant `TimePattern` (lines 351-519) -/

/-- The enumeration `TimePattern::Type`. -/
inductive TimePattern.Type where
  | undefined
  | absolute
  | recurring
  | interval
  | timer
  deriving DecidableEq, Repr

/-- The class `TimePattern`: the tag together with the one live member of the
union. -/
inductive TimePattern where
  | undefined
  | absolute (a : AbsoluteTime)
  | recurring (r : RecurringTime)
  | interval (i : TimeInterval)
  | timer (t : Timer)
  deriving DecidableEq, Repr

/-- The method `TimePattern::getType`. -/
def TimePattern.getType : TimePattern → TimePattern.Type
  | .undefined => .undefined
  | .absolute _ => .absolute
  | .recurring _ => .recurring
  | .interval _ => .interval
  | .timer _ => .timer

/-- The method `TimePattern::asAbsolute`; reading a member that is not live
has no defined result (`none`). -/
def TimePattern.asAbsolute : TimePattern → Option AbsoluteTime
  | .absolute a => some a
  | _ => Option.none

/-- The method `TimePattern::asRecurring`. -/
def TimePattern.asRecurring : TimePattern → Option RecurringTime
  | .recurring r => some r
  | _ => Option.none

/-- The method `TimePattern::asInterval`. -/
def TimePattern.asInterval : TimePattern → Option TimeInterval
  | .interval i => some i
  | _ => Option.none

/-- The method `TimePattern::asTimer`. -/
def TimePattern.asTimer : TimePattern → Option Timer
  | .timer t => some t
  | _ => Option.none

/-- The static method `TimePattern::parse`; `std::mktime` is a parameter. -/
def TimePattern.parse (mktime : Tm → Int) (s : List Char) : Except Exn TimePattern :=
  if s.isEmpty ∨ s = "none".toList then
    .ok .undefined
  else if isdigit (front s) then do
    -- Absolute time
    let time ← parseTimestamp mktime s
    let variation ←
      if s.length > 19 ∧ s.get? 19 = some 'A' then
        -- Random variation
        parseDuration (← substrFrom s 20)
      else pure 0
    pure (.absolute { base := time, variation := variation })
  else if front s = 'R' ∨ front s = 'P' then do
    -- (Recurring) timer
    let numRepetitions ←
      if front s = 'R' then do
        if (← charAt s 1) = '/' then
          -- Infinite
          pure (-1)
        else stoi (← substr s 1 2)
      else pure 1
    let start := size_t (find s 'T' 0 + 1)
    let randomStart := find s 'A' 0
    let expires ← parseDuration (← substr s start (size_t (randomStart - start)))
    let variance ←
      if randomStart ≠ npos then parseDuration (← substrFrom s randomStart)
      else pure (seconds 0)
    pure (.timer { expires := expires, numExecutions := numRepetitions, variation := variance })
  else if front s = 'W' ∧ s.count '/' = 1 then do
    -- Recurring time
    let days ← Weekdays.parse (← substr s 1 3)
    let time ← parseDuration (← substrFrom s 6)
    let variation ← if s.length > 14 then parseDuration (← substrFrom s 15) else pure 0
    pure (.recurring { time := time, days := days, variation := variation })
  else if front s = 'T' ∨ front s = 'W' then do
    let days ← if front s = 'W' then Weekdays.parse (← substr s 1 3) else pure Weekdays.all
    -- Time interval
    let start := size_t (find s 'T' 0 + 1)
    let «end» := find s '/' start
    let startTime ← parseDuration (← substr s start (size_t («end» - start)))
    let endTime ← parseDuration (← substrFrom s (size_t («end» + 2)))
    pure (.interval { start := startTime, «end» := endTime, days := days })
  else
    .error (.HueException ("Unable to parse time string: ".toList ++ s))

/-! ## The object representation of `TimePattern` (lines 351-445 and 521-542)

The functions above treat a `TimePattern` as a value.  The constructors, the
copy operations and `destroy` work on the two parts of the object: the tag
`type` and the anonymous union.  Objects live in a store indexed by their
address, so that `this == &other` can be told. -/

/-- The anonymous union of `TimePattern`: which member is alive, and its
value.  The member `undefined` holds `nullptr`. -/
inductive TimePattern.Union where
  | undefined
  | absolute (a : AbsoluteTime)
  | recurring (r : RecurringTime)
  | interval (i : TimeInterval)
  | timer (t : Timer)
  deriving DecidableEq, Repr

/-- The kind of the member that is alive. -/
def TimePattern.Union.kind : TimePattern.Union → TimePattern.Type
  | .undefined => .undefined
  | .absolute _ => .absolute
  | .recurring _ => .recurring
  | .interval _ => .interval
  | .timer _ => .timer

/-- Reading the member `absolute`; there is no defined result (`none`) when
another member is alive. -/
def TimePattern.Union.readAbsolute : TimePattern.Union → Option AbsoluteTime
  | .absolute a => some a
  | _ => Option.none

/-- Reading the member `recurring`. -/
def TimePattern.Union.readRecurring : TimePattern.Union → Option RecurringTime
  | .recurring r => some r
  | _ => Option.none

/-- Reading the member `interval`. -/
def TimePattern.Union.readInterval : TimePattern.Union → Option TimeInterval
  | .interval i => some i
  | _ => Option.none

/-- Reading the member `timer`. -/
def TimePattern.Union.readTimer : TimePattern.Union → Option Timer
  | .timer t => some t
  | _ => Option.none

/-- A `TimePattern` object: the tag and the union. -/
structure TimePattern.Object where
  type : TimePattern.Type
  storage : TimePattern.Union
  deriving DecidableEq, Repr

/-- The tag names the member that is alive. -/
def TimePattern.Object.Valid (o : TimePattern.Object) : Prop := o.type = o.storage.kind

/-- The default constructor `TimePattern()` (line 351). -/
def TimePattern.Object.default : TimePattern.Object :=
  { type := .undefined, storage := .undefined }

/-- The constructor `TimePattern(const AbsoluteTime&)` (lines 358-361). -/
def TimePattern.Object.ofAbsolute (absolute : AbsoluteTime) : TimePattern.Object :=
  { type := .absolute, storage := .absolute absolute }

/-- The constructor `TimePattern(const RecurringTime&)` (lines 363-366). -/
def TimePattern.Object.ofRecurring (recurring : RecurringTime) : TimePattern.Object :=
  { type := .recurring, storage := .recurring recurring }

/-- The constructor `TimePattern(const TimeInterval&)` (lines 368-371). -/
def TimePattern.Object.ofInterval (interval : TimeInterval) : TimePattern.Object :=
  { type := .interval, storage := .interval interval }

/-- The constructor `TimePattern(const Timer&)` (lines 373-376). -/
def TimePattern.Object.ofTimer (timer : Timer) : TimePattern.Object :=
  { type := .timer, storage := .timer timer }

/-- The object that the constructor call for a `TimePattern` value builds. -/
def TimePattern.toObject : TimePattern → TimePattern.Object
  | .undefined => TimePattern.Object.default
  | .absolute a => TimePattern.Object.ofAbsolute a
  | .recurring r => TimePattern.Object.ofRecurring r
  | .interval i => TimePattern.Object.ofInterval i
  | .timer t => TimePattern.Object.ofTimer t

/-- The method `TimePattern::getType` on an object: it returns the tag. -/
def TimePattern.Object.getType (o : TimePattern.Object) : TimePattern.Type := o.type

/-- The method `TimePattern::asAbsolute` on an object: it reads the member
`absolute` without looking at the tag. -/
def TimePattern.Object.asAbsolute (o : TimePattern.Object) : Option AbsoluteTime :=
  o.storage.readAbsolute

/-- The method `TimePattern::asRecurring` on an object. -/
def TimePattern.Object.asRecurring (o : TimePattern.Object) : Option RecurringTime :=
  o.storage.readRecurring

/-- The method `TimePattern::asInterval` on an object. -/
def TimePattern.Object.asInterval (o : TimePattern.Object) : Option TimeInterval :=
  o.storage.readInterval

/-- The method `TimePattern::asTimer` on an object. -/
def TimePattern.Object.asTimer (o : TimePattern.Object) : Option Timer :=
  o.storage.readTimer

/-- The method `TimePattern::destroy` (lines 521-542): the destructor of the
member the tag names is called, which has no defined result (`none`) when that
member is not alive; then the tag and the union are reset. -/
def TimePattern.Object.destroy (o : TimePattern.Object) : Option TimePattern.Object :=
  let reset : TimePattern.Object := { type := .undefined, storage := .undefined }
  match o.type with
  | .absolute => o.storage.readAbsolute.map fun _ => reset
  | .recurring => o.storage.readRecurring.map fun _ => reset
  | .interval => o.storage.readInterval.map fun _ => reset
  | .timer => o.storage.readTimer.map fun _ => reset
  | .undefined => some reset

/-- The store: the `TimePattern` object at each address. -/
abbrev TimePattern.Store := Nat → TimePattern.Object

/-- The copy assignment `TimePattern::operator=` (lines 383-420), called on the
object at address `this` with the object at address `other`.  The copy
constructors of the four payloads copy integer members and do not throw, so
the `catch` block is never entered. -/
def TimePattern.operator_assign (mem : TimePattern.Store) (this other : Nat) :
    Option TimePattern.Store :=
  if this = other then some mem
  else do
    let _ ← (mem this).destroy
    let type := (mem other).type
    let copy ← match type with
      | .undefined => some { type := type, storage := .undefined }
      | .absolute => (mem other).storage.readAbsolute.map fun a =>
          { type := type, storage := .absolute a }
      | .recurring => (mem other).storage.readRecurring.map fun r =>
          { type := type, storage := .recurring r }
      | .interval => (mem other).storage.readInterval.map fun i =>
          { type := type, storage := .interval i }
      | .timer => (mem other).storage.readTimer.map fun t =>
          { type := type, storage := .timer t }
    some (Function.update mem this copy)

/-- The copy constructor `TimePattern(const TimePattern&)` (lines 378-381): the
new object at address `this` is initialised as undefined and then assigned
from `other`. -/
def TimePattern.copy_construct (mem : TimePattern.Store) (this other : Nat) :
    Option TimePattern.Store :=
  TimePattern.operator_assign
    (Function.update mem this { type := .undefined, storage := .undefined }) this other

/-! ## Sensor requests (`src/src/Sensor.cpp`, lines 171-174) -/

/-- A JSON value of `nlohmann::json`; numbers are the integers. -/
inductive Json where
  | null
  | bool (b : Bool)
  | number (n : Int)
  | string (s : List Char)
  | array (elements : List Json)
  | object (members : List (List Char × Json))

/-- The arguments of one call of `sendPutRequest`: the sub-path and the JSON
body.  The method itself belongs to `BaseDevice`, which is not among the
sources; the file information argument is left out. -/
structure PutRequest where
  subPath : List Char
  body : Json

/-- The method `Sensor::setStateAttribute`: the `sendPutRequest` call it makes.
The initializer list `{{"key", value}}` is one pair of a string and a value,
which `nlohmann::json` builds into an object with that one member. -/
def Sensor.setStateAttribute (_key : List Char) (value : Json) : PutRequest :=
  { subPath := "/state".toList, body := Json.object [("key".toList, value)] }

/-! ## Wire forms named in the statements -/

/-- The three-character zero-padded decimal of a number below 1000, as the
specification words the weekday code. -/
def threeDigitDecimal (m : Nat) : List Char :=
  [Char.ofNat ('0'.toNat + m / 100), Char.ofNat ('0'.toNat + m / 10 % 10),
    Char.ofNat ('0'.toNat + m % 10)]

/-- The seven single-day sets. -/
def Weekdays.singleDays : List Weekdays :=
  [Weekdays.monday, Weekdays.tuesday, Weekdays.wednesday, Weekdays.thursday, Weekdays.friday,
    Weekdays.saturday, Weekdays.sunday]

/-- The `Weekdays` values built without parsing: `none()`, `all()`, the seven
single-day constructors, and `unionWith` of such values. -/
inductive Weekdays.Constructed : Weekdays → Prop
  | none : Weekdays.Constructed Weekdays.none
  | all : Weekdays.Constructed Weekdays.all
  | day {w : Weekdays} : w ∈ Weekdays.singleDays → Weekdays.Constructed w
  | unionWith {a b : Weekdays} :
      Weekdays.Constructed a → Weekdays.Constructed b → Weekdays.Constructed (a.unionWith b)

/-- The `Weekdays` values the public operations produce: those above, the
results of `Weekdays::parse`, and `unionWith` of any of them. -/
inductive Weekdays.Produced : Weekdays → Prop
  | none : Weekdays.Produced Weekdays.none
  | all : Weekdays.Produced Weekdays.all
  | day {w : Weekdays} : w ∈ Weekdays.singleDays → Weekdays.Produced w
  | unionWith {a b : Weekdays} :
      Weekdays.Produced a → Weekdays.Produced b → Weekdays.Produced (a.unionWith b)
  | parse {s : List Char} {w : Weekdays} : Weekdays.parse s = .ok w → Weekdays.Produced w

/-- A valid non-negative integer literal: a non-empty run of decimal digits. -/
def isDigitRun (s : List Char) : Bool := !s.isEmpty && s.all isdigit

/-- What is left of a string once `std::stoi` has skipped the leading
whitespace and one sign. -/
def afterSign (s : List Char) : List Char :=
  match s.dropWhile isspace with
  | [] => []
  | c :: t => if c = '-' ∨ c = '+' then t else c :: t

/-- The integer written at the head of a string: the run of decimal digits
after the leading whitespace and the sign, negated after a `-`. -/
def leadingInteger (s : List Char) : Int :=
  let v : Int := digitsValue ((afterSign s).takeWhile isdigit)
  if (s.dropWhile isspace).head? = some '-' then -v else v

/-- Whether a string begins with a decimal digit. -/
def beginsWithDigit : List Char → Bool
  | [] => false
  | c :: _ => isdigit c

/-- The two-character zero-padded decimal of a number below 100. -/
def twoDigitDecimal (n : Nat) : List Char :=
  [Char.ofNat ('0'.toNat + n / 10), Char.ofNat ('0'.toNat + n % 10)]

/-- The text `HH:MM:SS` of a duration of `k` whole seconds: hours, minutes of
the hour and seconds of the minute, two digits each. -/
def HH_MM_SS (k : Nat) : List Char :=
  twoDigitDecimal (k / 3600) ++ ':' :: (twoDigitDecimal (k / 60 % 60) ++ ':' ::
    twoDigitDecimal (k % 60))

/-- The repetition prefix of a timer in the wire grammar: nothing for one
execution, `R/` for the count 0, `R<nn>/` otherwise. -/
def timerPrefix (c : Int) : List Char :=
  if c = 1 then [] else if c = 0 then "R/".toList
  else 'R' :: (twoDigitDecimal c.toNat ++ ['/'])

/-- The weekday prefix of an interval in the wire grammar: `W<ddd>/` unless
the mask is the all-days mask 127. -/
def weekdayPrefix (m : Nat) : List Char :=
  if m = 127 then [] else 'W' :: (threeDigitDecimal m ++ ['/'])

/-- Recogniser of the wire form `HH:MM:SS`: two decimal digits per field. -/
def isHMS : List Char → Bool
  | [a, b, p, c, d, q, e, f] =>
    isdigit a && isdigit b && p == ':' && isdigit c && isdigit d && q == ':' &&
      isdigit e && isdigit f
  | _ => false

/-- Recogniser of a three-digit weekday code. -/
def isWeekdayCode : List Char → Bool
  | [a, b, c] => isdigit a && isdigit b && isdigit c
  | _ => false

/-! ## Auxiliary facts -/

theorem fmt02d_length (n : Int) (h0 : 0 ≤ n) (h1 : n < 100) : (fmt02d n).length = 2 := by
  interval_cases n <;> rfl

theorem countHours_of_nonneg (d : Int) (h : 0 ≤ d) : countHours d = d / 3600000000000 := by
  unfold countHours ticksPerSecond
  rw [Int.tdiv_eq_ediv h (by norm_num)]
  norm_num

theorem countMinutes_of_nonneg (d : Int) (h : 0 ≤ d) : countMinutes d = d / 60000000000 := by
  unfold countMinutes ticksPerSecond
  rw [Int.tdiv_eq_ediv h (by norm_num)]
  norm_num

theorem countSeconds_of_nonneg (d : Int) (h : 0 ≤ d) : countSeconds d = d / 1000000000 := by
  unfold countSeconds ticksPerSecond
  rw [Int.tdiv_eq_ediv h (by norm_num)]

theorem hours_eq (n : Int) : hours n = n * 3600000000000 := by
  unfold hours ticksPerSecond; norm_num

theorem minutes_eq (n : Int) : minutes n = n * 60000000000 := by
  unfold minutes ticksPerSecond; norm_num

theorem seconds_eq (n : Int) : seconds n = n * 1000000000 := by
  unfold seconds ticksPerSecond; norm_num

/-- A duration between zero and 24 hours is formatted without an exception:
the three fields are the whole hours, the whole minutes of the rest and the
whole seconds of what is left. -/
theorem durationTo_hh_mm_ss_of_le (d : Int) (h0 : 0 ≤ d) (h1 : d ≤ hours 24) :
    durationTo_hh_mm_ss d
      = .ok (fmt02d (d / 3600000000000) ++ ':' ::
          (fmt02d (d % 3600000000000 / 60000000000) ++ ':' ::
            fmt02d (d % 60000000000 / 1000000000))) := by
  rw [hours_eq] at h1
  have hH : countHours d = d / 3600000000000 := countHours_of_nonneg d h0
  have hd1 : d - hours (d / 3600000000000) = d % 3600000000000 := by
    rw [hours_eq]; omega
  have hM : countMinutes (d % 3600000000000) = d % 3600000000000 / 60000000000 :=
    countMinutes_of_nonneg _ (by omega)
  have hd2 : d % 3600000000000 - minutes (d % 3600000000000 / 60000000000)
      = d % 60000000000 := by
    rw [minutes_eq]; omega
  have hS : countSeconds (d % 60000000000) = d % 60000000000 / 1000000000 :=
    countSeconds_of_nonneg _ (by omega)
  have lH := fmt02d_length (d / 3600000000000) (by omega) (by omega)
  have lM := fmt02d_length (d % 3600000000000 / 60000000000) (by omega) (by omega)
  have lS := fmt02d_length (d % 60000000000 / 1000000000) (by omega) (by omega)
  unfold durationTo_hh_mm_ss
  rw [if_neg (by rw [hours_eq]; omega)]
  simp only [hH, hd1, hM, hd2, hS]
  rw [if_neg (by simp [lH, lM, lS])]

theorem isdigit_bounds {c : Char} (h : isdigit c = true) : 48 ≤ c.toNat ∧ c.toNat ≤ 57 := by
  simpa [isdigit] using h

theorem isdigit_ne {c x : Char} (h : isdigit c = true) (hx : isdigit x = false) : c ≠ x := by
  intro e; subst e; rw [h] at hx; cases hx

theorem isdigit_not_isspace {c : Char} (h : isdigit c = true) : isspace c = false := by
  have := isdigit_bounds h
  simp [isspace]; omega

theorem takeWhile_isdigit_append (ds rest : List Char) (hds : ∀ c ∈ ds, isdigit c = true)
    (hrest : rest.head?.map isdigit ≠ some true) :
    (ds ++ rest).takeWhile isdigit = ds := by
  induction ds with
  | nil =>
    cases rest with
    | nil => rfl
    | cons x xs =>
      have hx : isdigit x = false := by
        cases hxd : isdigit x with
        | false => rfl
        | true => exact absurd (by simp [hxd]) hrest
      simp [List.takeWhile, hx]
  | cons c t ih =>
    have hc := hds c (by simp)
    have ht := ih (fun x hx => hds x (by simp [hx]))
    simp [List.takeWhile, hc, ht]

theorem stoi_digits (ds rest : List Char) (hds : ∀ c ∈ ds, isdigit c = true) (hne : ds ≠ [])
    (hrest : rest.head?.map isdigit ≠ some true) (hlt : digitsValue ds < 2 ^ 31) :
    stoi (ds ++ rest) = .ok (digitsValue ds : Int) := by
  have htw := takeWhile_isdigit_append ds rest hds hrest
  obtain ⟨c, t, rfl⟩ := List.exists_cons_of_ne_nil hne
  have hc := hds c (by simp)
  have hsp := isdigit_not_isspace hc
  have hm : c ≠ '-' := isdigit_ne hc (by decide)
  have hp : c ≠ '+' := isdigit_ne hc (by decide)
  have hv : ¬ ((digitsValue (c :: t) : Int) < -(2 ^ 31) ∨ (digitsValue (c :: t) : Int) > 2 ^ 31 - 1) := by
    have : (digitsValue (c :: t) : Int) < 2 ^ 31 := by exact_mod_cast hlt
    omega
  unfold stoi
  simp only [List.cons_append] at htw ⊢
  simp only [List.dropWhile_cons, hsp, List.head?_cons, Option.some.injEq, hm, hp, or_self,
    if_false, htw, decide_False, Bool.false_eq_true]
  simp only [List.cons_ne_nil, if_false]
  rw [if_neg hv]

theorem digitsValue_two {a b : Char} (ha : isdigit a = true) (hb : isdigit b = true) :
    digitsValue [a, b] < 100 := by
  have := isdigit_bounds ha
  have := isdigit_bounds hb
  simp [digitsValue]; omega

theorem digitsValue_three {a b c : Char} (ha : isdigit a = true) (hb : isdigit b = true)
    (hc : isdigit c = true) : digitsValue [a, b, c] < 1000 := by
  have := isdigit_bounds ha
  have := isdigit_bounds hb
  have := isdigit_bounds hc
  simp [digitsValue]; omega

theorem ok_bind {α β : Type} (x : α) (f : α → Except Exn β) :
    (Except.ok x >>= f) = f x := rfl

theorem stoi_one {a : Char} (ha : isdigit a = true) :
    stoi [a] = .ok (digitsValue [a] : Int) := by
  have hv : digitsValue [a] < 2 ^ 31 := by
    have := isdigit_bounds ha
    simp [digitsValue]; omega
  simpa using stoi_digits [a] [] (by simp [ha]) (by simp) (by simp) hv

theorem stoi_two {a b : Char} (ha : isdigit a = true) (hb : isdigit b = true) :
    stoi [a, b] = .ok (digitsValue [a, b] : Int) := by
  have hv : digitsValue [a, b] < 2 ^ 31 := lt_trans (digitsValue_two ha hb) (by norm_num)
  simpa using stoi_digits [a, b] [] (by simp [ha, hb]) (by simp) (by simp) hv

theorem stoi_three {a b c : Char} (ha : isdigit a = true) (hb : isdigit b = true)
    (hc : isdigit c = true) : stoi [a, b, c] = .ok (digitsValue [a, b, c] : Int) := by
  have hv : digitsValue [a, b, c] < 2 ^ 31 :=
    lt_trans (digitsValue_three ha hb hc) (by norm_num)
  simpa using stoi_digits [a, b, c] [] (by simp [ha, hb, hc]) (by simp) (by simp) hv

/-- What `parseDuration` returns on the wire form `HH:MM:SS`: the third field
it reads is the last character alone. -/
theorem parseDuration_hms (a b c d e f : Char)
    (ha : isdigit a = true) (hb : isdigit b = true) (hc : isdigit c = true)
    (hd : isdigit d = true) (hf : isdigit f = true) :
    parseDuration [a, b, ':', c, d, ':', e, f]
      = .ok (hours (digitsValue [a, b]) + minutes (digitsValue [c, d])
          + seconds (digitsValue [f])) := by
  have s1 : substr [a, b, ':', c, d, ':', e, f] 0 2 = .ok [a, b] := rfl
  have s2 : substr [a, b, ':', c, d, ':', e, f] 3 2 = .ok [c, d] := by
    simp [substr]
  have s3 : substr [a, b, ':', c, d, ':', e, f] 7 2 = .ok [f] := by
    simp [substr]
  unfold parseDuration
  rw [s1, ok_bind, stoi_two ha hb, ok_bind, s2, ok_bind, stoi_two hc hd, ok_bind, s3, ok_bind,
    stoi_one hf, ok_bind]
  rfl

theorem parse_W_interval_chars (mktime : Tm → Int) (x y z a b c d e f a1 b1 c1 d1 e1 f1 : Char)
    (hx : isdigit x = true) (hy : isdigit y = true) (hz : isdigit z = true)
    (ha : isdigit a = true) (hb : isdigit b = true) (hc : isdigit c = true)
    (hd : isdigit d = true) (he : isdigit e = true) (hf : isdigit f = true)
    (ha1 : isdigit a1 = true) (hb1 : isdigit b1 = true) (hc1 : isdigit c1 = true)
    (hd1 : isdigit d1 = true) (he1 : isdigit e1 = true) (hf1 : isdigit f1 = true) :
    TimePattern.parse mktime
        ('W' :: x :: y :: z :: '/' :: 'T' :: a :: b :: ':' :: c :: d :: ':' :: e :: f :: '/' ::
          'T' :: [a1, b1, ':', c1, d1, ':', e1, f1])
      = (parseDuration [a, b, ':', c, d, ':', e, f] >>= fun st =>
          parseDuration [a1, b1, ':', c1, d1, ':', e1, f1] >>= fun en =>
            pure (.interval { start := st, «end» := en, days := { bitmask := digitsValue [x, y, z] } })) := by
  have nx : x ≠ '/' := isdigit_ne hx (by decide)
  have ny : y ≠ '/' := isdigit_ne hy (by decide)
  have nz : z ≠ '/' := isdigit_ne hz (by decide)
  have na : a ≠ '/' := isdigit_ne ha (by decide)
  have nb : b ≠ '/' := isdigit_ne hb (by decide)
  have nc : c ≠ '/' := isdigit_ne hc (by decide)
  have nd : d ≠ '/' := isdigit_ne hd (by decide)
  have ne : e ≠ '/' := isdigit_ne he (by decide)
  have nf : f ≠ '/' := isdigit_ne hf (by decide)
  have na1 : a1 ≠ '/' := isdigit_ne ha1 (by decide)
  have nb1 : b1 ≠ '/' := isdigit_ne hb1 (by decide)
  have nc1 : c1 ≠ '/' := isdigit_ne hc1 (by decide)
  have nd1 : d1 ≠ '/' := isdigit_ne hd1 (by decide)
  have ne1 : e1 ≠ '/' := isdigit_ne he1 (by decide)
  have nf1 : f1 ≠ '/' := isdigit_ne hf1 (by decide)
  have tx : x ≠ 'T' := isdigit_ne hx (by decide)
  have ty : y ≠ 'T' := isdigit_ne hy (by decide)
  have tz : z ≠ 'T' := isdigit_ne hz (by decide)
  generalize hs : ('W' :: x :: y :: z :: '/' :: 'T' :: a :: b :: ':' :: c :: d :: ':' :: e :: f ::
    '/' :: 'T' :: [a1, b1, ':', c1, d1, ':', e1, f1]) = s
  have hemp : s.isEmpty = false := by subst hs; rfl
  have hnone : ¬ s = "none".toList := by subst hs; intro h; cases h
  have hfront : front s = 'W' := by subst hs; rfl
  have hcount : s.count '/' = 2 := by
    subst hs
    simp [List.count_cons, nx, ny, nz, na, nb, nc, nd, ne, nf, na1, nb1, nc1, nd1, ne1, nf1]
  have hfindT : find s 'T' 0 = 5 := by
    subst hs
    simp [find, findFrom, tx, ty, tz]
  have hfindS : find s '/' 6 = 14 := by
    subst hs
    simp [find, findFrom, na, nb, nc, nd, ne, nf]
  have hsub1 : substr s 1 3 = .ok [x, y, z] := by subst hs; rfl
  have hsub2 : substr s 6 8 = .ok [a, b, ':', c, d, ':', e, f] := by subst hs; rfl
  have hsub3 : substrFrom s 16 = .ok [a1, b1, ':', c1, d1, ':', e1, f1] := by subst hs; rfl
  have hz1 : size_t ((5 : Nat) + 1) = 6 := by decide
  have hz2 : size_t ((14 : Nat) - (6 : Nat)) = 8 := by decide
  have hz3 : size_t ((14 : Nat) + 2) = 16 := by decide
  unfold TimePattern.parse
  simp only [hemp, hnone, hfront, hcount, hfindT, hfindS, hz1, hz2, hz3, hsub1, hsub2, hsub3,
    ok_bind, Weekdays.parse, stoi_three hx hy hz]
  have hdW : isdigit 'W' = false := by decide
  simp only [hdW, Bool.false_eq_true, or_self, if_false, true_and, Nat.reduceEqDiff,
    Char.reduceEq, or_false, or_true, if_true, OfNat.ofNat_ne_one, false_or]
  rfl

theorem isHMS_cases {t : List Char} (h : isHMS t = true) :
    ∃ a b c d e f, (isdigit a = true ∧ isdigit b = true ∧ isdigit c = true ∧
      isdigit d = true ∧ isdigit e = true ∧ isdigit f = true) ∧
      t = [a, b, ':', c, d, ':', e, f] := by
  unfold isHMS at h
  split at h
  · rename_i a b p c d q e f
    simp only [Bool.and_eq_true, beq_iff_eq] at h
    obtain ⟨⟨⟨⟨⟨⟨⟨ha, hb⟩, rfl⟩, hc⟩, hd⟩, rfl⟩, he⟩, hf⟩ := h
    exact ⟨a, b, c, d, e, f, ⟨ha, hb, hc, hd, he, hf⟩, rfl⟩
  · cases h

theorem isWeekdayCode_cases {t : List Char} (h : isWeekdayCode t = true) :
    ∃ x y z, (isdigit x = true ∧ isdigit y = true ∧ isdigit z = true) ∧ t = [x, y, z] := by
  unfold isWeekdayCode at h
  split at h
  · rename_i x y z
    simp only [Bool.and_eq_true] at h
    exact ⟨x, y, z, ⟨h.1.1, h.1.2, h.2⟩, rfl⟩
  · cases h

theorem int_lor_natCast (m n : Nat) : Int.lor (m : Int) (n : Int) = ((m ||| n : Nat) : Int) := rfl

theorem int_lor_bounds {a b : Int} (ha0 : 0 ≤ a) (ha1 : a ≤ 127) (hb0 : 0 ≤ b) (hb1 : b ≤ 127) :
    0 ≤ Int.lor a b ∧ Int.lor a b ≤ 127 := by
  obtain ⟨m, rfl⟩ := Int.eq_ofNat_of_zero_le ha0
  obtain ⟨n, rfl⟩ := Int.eq_ofNat_of_zero_le hb0
  rw [int_lor_natCast]
  have hm : m < 2 ^ 7 := by omega
  have hn : n < 2 ^ 7 := by omega
  have := Nat.or_lt_two_pow hm hn
  omega

theorem weekdays_constructed_bounds {w : Weekdays} (h : Weekdays.Constructed w) :
    0 ≤ w.bitmask ∧ w.bitmask ≤ 127 := by
  induction h with
  | none => decide
  | all => decide
  | day hw =>
    simp only [Weekdays.singleDays, List.mem_cons, List.mem_singleton, List.not_mem_nil,
      or_false] at hw
    rcases hw with rfl | rfl | rfl | rfl | rfl | rfl | rfl <;> decide
  | unionWith _ _ iha ihb => exact int_lor_bounds ihb.1 ihb.2 iha.1 iha.2

theorem weekdays_parse_eq (s : List Char) :
    Weekdays.parse s = (stoi s >>= fun n => pure { bitmask := n }) := rfl

theorem takeWhile_isdigit_eq_nil (t : List Char) :
    t.takeWhile isdigit = [] ↔ beginsWithDigit t = false := by
  cases t with
  | nil => simp [beginsWithDigit]
  | cons c u =>
    cases hc : isdigit c <;> simp [List.takeWhile, beginsWithDigit, hc]

theorem stoi_body_eq (s : List Char) :
    (if (s.dropWhile isspace).head? = some '-' ∨ (s.dropWhile isspace).head? = some '+'
      then (s.dropWhile isspace).tail else s.dropWhile isspace) = afterSign s := by
  unfold afterSign
  cases s.dropWhile isspace with
  | nil => simp
  | cons c t => simp

theorem stoi_invalid_iff (s : List Char) :
    stoi s = .error .invalid_argument ↔ beginsWithDigit (afterSign s) = false := by
  unfold stoi
  simp only [stoi_body_eq, takeWhile_isdigit_eq_nil]
  constructor
  · intro h
    by_contra hb
    rw [if_neg hb] at h
    split_ifs at h <;> cases h
  · intro h
    rw [if_pos h]

theorem stoi_of_beginsWithDigit (s : List Char) (h : beginsWithDigit (afterSign s) = true) :
    stoi s = if leadingInteger s < -(2 ^ 31) ∨ leadingInteger s > 2 ^ 31 - 1
      then .error .out_of_range else .ok (leadingInteger s) := by
  unfold stoi leadingInteger
  simp only [stoi_body_eq, takeWhile_isdigit_eq_nil, h, Bool.true_eq_false, if_false]

theorem fmt02d_natCast (n : Nat) (h : n < 100) : fmt02d (n : Int) = twoDigitDecimal n := by
  interval_cases n <;> rfl

/-- A whole number of seconds up to 24 hours is formatted as `HH:MM:SS`. -/
theorem durationTo_hh_mm_ss_seconds (k : Nat) (h : k ≤ 86400) :
    durationTo_hh_mm_ss (seconds k) = .ok (HH_MM_SS k) := by
  have hs : seconds (k : Int) = (k : Int) * 1000000000 := seconds_eq _
  rw [durationTo_hh_mm_ss_of_le _ (by rw [hs]; omega) (by rw [hs, hours_eq]; omega), hs]
  have e1 : (k : Int) * 1000000000 / 3600000000000 = ((k / 3600 : Nat) : Int) := by omega
  have e2 : (k : Int) * 1000000000 % 3600000000000 / 60000000000
      = ((k / 60 % 60 : Nat) : Int) := by omega
  have e3 : (k : Int) * 1000000000 % 60000000000 / 1000000000 = ((k % 60 : Nat) : Int) := by
    omega
  rw [e1, e2, e3, fmt02d_natCast _ (by omega), fmt02d_natCast _ (by omega),
    fmt02d_natCast _ (by omega)]
  rfl

theorem seconds_natCast_eq_zero (v : Nat) : seconds (v : Int) = 0 ↔ v = 0 := by
  rw [seconds_eq]; omega

theorem weekdays_toString_eq (m : Nat) (h : m ≤ 127) :
    Weekdays.toString { bitmask := (m : Int) } = threeDigitDecimal m := by
  interval_cases m <;> rfl

/-- The object a constructor call builds from a value is valid and reports the
type of the value. -/
theorem toObject_valid (p : TimePattern) : p.toObject.Valid ∧ p.toObject.getType = p.getType := by
  cases p <;> exact ⟨rfl, rfl⟩

/-- Assignment between two distinct valid objects stores a copy of the source at
the target and touches nothing else. -/
theorem operator_assign_of_ne (mem : TimePattern.Store) (this other : Nat) (hne : this ≠ other)
    (hthis : (mem this).Valid) (hother : (mem other).Valid) :
    TimePattern.operator_assign mem this other = some (Function.update mem this (mem other)) := by
  unfold TimePattern.operator_assign
  rw [if_neg hne]
  have hd : (mem this).destroy = some { type := .undefined, storage := .undefined } := by
    unfold TimePattern.Object.Valid at hthis
    unfold TimePattern.Object.destroy
    rcases hm : mem this with ⟨ty, st⟩
    rw [hm] at hthis
    simp only at hthis
    subst hthis
    cases st <;> rfl
  rw [hd]
  unfold TimePattern.Object.Valid at hother
  rcases ho : mem other with ⟨ty, st⟩
  rw [ho] at hother
  simp only at hother
  subst hother
  cases st <;> rfl

theorem twoDigitDecimal_spec (n : Nat) (h : n < 100) :
    ∃ a b, isdigit a = true ∧ isdigit b = true ∧ twoDigitDecimal n = [a, b] ∧
      digitsValue [a, b] = n ∧ digitsValue [b] = n % 10 := by
  interval_cases n <;> exact ⟨_, _, by decide, by decide, rfl, by decide, by decide⟩

/-- The timer branch of `parse` on `R<nn>/PT<HH:MM:SS>`. -/
theorem parse_timer_R_chars (mktime : Tm → Int) (x y a b c d e f : Char)
    (hx : isdigit x = true) (hy : isdigit y = true)
    (ha : isdigit a = true) (hb : isdigit b = true) (hc : isdigit c = true)
    (hd : isdigit d = true) (he : isdigit e = true) (hf : isdigit f = true) :
    TimePattern.parse mktime ('R' :: x :: y :: '/' :: 'P' :: 'T' :: [a, b, ':', c, d, ':', e, f])
      = (parseDuration [a, b, ':', c, d, ':', e, f] >>= fun expires =>
          pure (.timer { expires := expires, numExecutions := digitsValue [x, y],
                         variation := seconds 0 })) := by
  have sx : x ≠ '/' := isdigit_ne hx (by decide)
  have tx : x ≠ 'T' := isdigit_ne hx (by decide)
  have ty : y ≠ 'T' := isdigit_ne hy (by decide)
  have ax : x ≠ 'A' := isdigit_ne hx (by decide)
  have ay : y ≠ 'A' := isdigit_ne hy (by decide)
  have na : a ≠ 'A' := isdigit_ne ha (by decide)
  have nb : b ≠ 'A' := isdigit_ne hb (by decide)
  have nc : c ≠ 'A' := isdigit_ne hc (by decide)
  have nd : d ≠ 'A' := isdigit_ne hd (by decide)
  have ne : e ≠ 'A' := isdigit_ne he (by decide)
  have nf : f ≠ 'A' := isdigit_ne hf (by decide)
  generalize hs : ('R' :: x :: y :: '/' :: 'P' :: 'T' :: [a, b, ':', c, d, ':', e, f]) = s
  have hemp : s.isEmpty = false := by subst hs; rfl
  have hnone : ¬ s = "none".toList := by subst hs; intro h; cases h
  have hfront : front s = 'R' := by subst hs; rfl
  have hat : charAt s 1 = .ok x := by subst hs; rfl
  have hfindT : find s 'T' 0 = 5 := by
    subst hs
    simp [find, findFrom, tx, ty]
  have hfindA : find s 'A' 0 = npos := by
    subst hs
    simp [find, findFrom, ax, ay, na, nb, nc, nd, ne, nf]
  have hsub1 : substr s 1 2 = .ok [x, y] := by subst hs; rfl
  have hz1 : size_t ((5 : Nat) + 1) = 6 := by decide
  have hz2 : size_t ((npos : Nat) - (6 : Nat)) = 18446744073709551609 := by decide
  have hsub2 : substr s 6 18446744073709551609 = .ok [a, b, ':', c, d, ':', e, f] := by
    subst hs; rfl
  have hdR : isdigit 'R' = false := by decide
  unfold TimePattern.parse
  simp only [hemp, hnone, hfront, hat, hfindT, hfindA, hz1, hz2, hsub1, hsub2, ok_bind,
    stoi_two hx hy, hdR, Bool.false_eq_true, or_self, if_false, true_or, if_true, sx, ne_eq,
    not_true_eq_false]
  rfl

/-- The timer branch of `parse` on `PT<HH:MM:SS>`. -/
theorem parse_timer_P_chars (mktime : Tm → Int) (a b c d e f : Char)
    (ha : isdigit a = true) (hb : isdigit b = true) (hc : isdigit c = true)
    (hd : isdigit d = true) (he : isdigit e = true) (hf : isdigit f = true) :
    TimePattern.parse mktime ('P' :: 'T' :: [a, b, ':', c, d, ':', e, f])
      = (parseDuration [a, b, ':', c, d, ':', e, f] >>= fun expires =>
          pure (.timer { expires := expires, numExecutions := 1, variation := seconds 0 })) := by
  have na : a ≠ 'A' := isdigit_ne ha (by decide)
  have nb : b ≠ 'A' := isdigit_ne hb (by decide)
  have nc : c ≠ 'A' := isdigit_ne hc (by decide)
  have nd : d ≠ 'A' := isdigit_ne hd (by decide)
  have ne : e ≠ 'A' := isdigit_ne he (by decide)
  have nf : f ≠ 'A' := isdigit_ne hf (by decide)
  generalize hs : ('P' :: 'T' :: [a, b, ':', c, d, ':', e, f]) = s
  have hemp : s.isEmpty = false := by subst hs; rfl
  have hnone : ¬ s = "none".toList := by subst hs; intro h; cases h
  have hfront : front s = 'P' := by subst hs; rfl
  have hfindT : find s 'T' 0 = 1 := by
    subst hs
    simp [find, findFrom]
  have hfindA : find s 'A' 0 = npos := by
    subst hs
    simp [find, findFrom, na, nb, nc, nd, ne, nf]
  have hz1 : size_t ((1 : Nat) + 1) = 2 := by decide
  have hz2 : size_t ((npos : Nat) - (2 : Nat)) = 18446744073709551613 := by decide
  have hsub2 : substr s 2 18446744073709551613 = .ok [a, b, ':', c, d, ':', e, f] := by
    subst hs; rfl
  have hdP : isdigit 'P' = false := by decide
  unfold TimePattern.parse
  simp only [hemp, hnone, hfront, hfindT, hfindA, hz1, hz2, hsub2, ok_bind,
    hdP, Bool.false_eq_true, or_self, if_false, or_true, if_true, ne_eq,
    not_true_eq_false, Char.reduceEq]
  rfl

/-- The text of a timer with an expiry of `k` whole minutes below 24 hours, a
count in 1..99 and no variation. -/
theorem timer_toString_minutes (k : Nat) (c : Int) (hk : k < 1440) (hc1 : 1 ≤ c) (hc2 : c ≤ 99) :
    Timer.toString { expires := minutes k, numExecutions := c, variation := 0 }
      = .ok (timerPrefix c ++ 'P' :: 'T' :: HH_MM_SS (60 * k)) := by
  have hm : minutes (k : Int) = seconds ((60 * k : Nat) : Int) := by
    rw [minutes_eq, seconds_eq]; push_cast; ring
  unfold Timer.toString
  simp only [hm, durationTo_hh_mm_ss_seconds (60 * k) (by omega), ok_bind, ne_eq,
    not_true_eq_false, if_false]
  have hpre : (if ¬ c = 1 then
        (let result := ['R']
         let result :=
          if ¬ c = 0 then
            let s := to_string c
            (if s.length < 2 then result ++ ['0'] else result) ++ s
          else result
         result ++ ['/'])
      else []) = timerPrefix c := by
    interval_cases c <;> rfl
  simp only [hpre]
  rw [List.append_assoc]
  rfl

/-! ## Results -/

/-- C1, evaluated on the code: ten seconds are written as `00:00:10`, and
`parseDuration` reads that text back as zero seconds, because its third field
starts at offset 7 and so holds the last digit only.  The claimed round trip
`parseDuration(durationTo_hh_mm_ss(d)) == d` fails at `d = 10 s`. -/
theorem parseDuration_loses_tens_of_seconds :
    durationTo_hh_mm_ss (seconds 10) = .ok "00:00:10".toList ∧
    substr "00:00:10".toList 7 2 = .ok "0".toList ∧
    parseDuration "00:00:10".toList = .ok (seconds 0) ∧
    seconds 0 ≠ seconds 10 := by
  decide

/-- C2, evaluated on the code: the interval from 00:00:10 to 00:00:00 on all
days is written as `T00:00:10/T00:00:00`, and parsing that text gives an
interval whose start is zero, not ten seconds. -/
theorem interval_round_trip_loses_tens_of_seconds :
    TimeInterval.toString { start := seconds 10, «end» := 0, days := Weekdays.all }
      = .ok "T00:00:10/T00:00:00".toList ∧
    (∀ mktime : Tm → Int, TimePattern.parse mktime "T00:00:10/T00:00:00".toList
      = .ok (.interval { start := 0, «end» := 0, days := Weekdays.all })) ∧
    (0 : Int) ≠ seconds 10 := by
  refine ⟨by decide, fun mktime => rfl, by decide⟩

/-- C3, evaluated on the code: for the recurring time 07:30:00 on all days
without variation, `RecurringTime::toString` returns the empty string, not
the wire string `W127/07:30:00`; it returns the empty string for every
daytime and variation between zero and 24 hours. -/
theorem recurringTime_toString_returns_empty :
    RecurringTime.toString { time := hours 7 + minutes 30, days := Weekdays.all, variation := 0 }
      = .ok [] ∧
    ([] : List Char) ≠ "W127/07:30:00".toList ∧
    (∀ r : RecurringTime, 0 ≤ r.time → r.time ≤ hours 24 → 0 ≤ r.variation →
      r.variation ≤ hours 24 → r.toString = .ok []) := by
  refine ⟨by decide, by decide, ?_⟩
  intro r ht0 ht1 hv0 hv1
  unfold RecurringTime.toString
  rw [durationTo_hh_mm_ss_of_le r.time ht0 ht1, durationTo_hh_mm_ss_of_le r.variation hv0 hv1]
  by_cases hv : r.variation = 0
  · simp only [hv, ne_eq, not_true_eq_false, if_false]; rfl
  · simp only [ne_eq, hv, not_false_eq_true, if_true]; rfl

/-- C4, evaluated on the code: for the timestamp `2024-06-01T12:00:00` the
`std::tm` handed to `mktime` has `tm_year = 2024` and `tm_mon = 6`; with
`tm_year` counting from 1900 and `tm_mon` from 0 it denotes July 3924, and
`%FT%T` prints it as `3924-07-01T12:00:00`. -/
theorem parseTimestamp_tm_not_offset :
    ∃ tm : Tm, parseTimestampTm "2024-06-01T12:00:00".toList = .ok tm ∧
      tm.tm_year = 2024 ∧ tm.tm_mon = 6 ∧ tm.tm_mday = 1 ∧
      tm.tm_hour = 12 ∧ tm.tm_min = 0 ∧ tm.tm_sec = 0 ∧
      tm.calendarYear = 3924 ∧ tm.calendarMonth = 7 ∧
      strftime_FT tm = "3924-07-01T12:00:00".toList ∧
      strftime_FT tm ≠ "2024-06-01T12:00:00".toList :=
  ⟨⟨0, 0, 12, 1, 6, 2024, -1⟩, by decide⟩

/-- C5, evaluated on the code: `PT00:30:00A00:05:00` does not parse.  The
jitter substring starts at the `A` itself, so its hour field is `A0` and
`std::stoi` throws `std::invalid_argument`. -/
theorem timer_with_jitter_does_not_parse :
    find "PT00:30:00A00:05:00".toList 'A' 0 = 10 ∧
    substrFrom "PT00:30:00A00:05:00".toList 10 = .ok "A00:05:00".toList ∧
    parseDuration "A00:05:00".toList = .error .invalid_argument ∧
    ∀ mktime : Tm → Int, TimePattern.parse mktime "PT00:30:00A00:05:00".toList
      = .error .invalid_argument := by
  refine ⟨by decide, by decide, by decide, fun mktime => rfl⟩

/-- C6, evaluated on the code: `R/PT01:00:00` parses to a timer with
`numExecutions = -1`; `Timer::toString` writes that timer as `R-1/PT01:00:00`,
and writes `R/PT01:00:00` for the count 0. -/
theorem infinite_timer_parser_formatter_disagree :
    (∀ mktime : Tm → Int, TimePattern.parse mktime "R/PT01:00:00".toList
      = .ok (.timer { expires := hours 1, numExecutions := -1, variation := 0 })) ∧
    Timer.toString { expires := hours 1, numExecutions := -1, variation := 0 }
      = .ok "R-1/PT01:00:00".toList ∧
    Timer.toString { expires := hours 1, numExecutions := 0, variation := 0 }
      = .ok "R/PT01:00:00".toList := by
  refine ⟨fun mktime => rfl, by decide, by decide⟩

/-- C7: a non-empty string other than `none` whose first character is neither
a decimal digit nor one of `R`, `P`, `W`, `T` is rejected by
`TimePattern::parse` with the `HueException` whose message is
`Unable to parse time string: ` followed by the string. -/
theorem parse_rejects_unrecognized (mktime : Tm → Int) (s : List Char)
    (hne : s ≠ []) (hnone : s ≠ "none".toList) (hdig : isdigit (front s) = false)
    (hR : front s ≠ 'R') (hP : front s ≠ 'P') (hW : front s ≠ 'W') (hT : front s ≠ 'T') :
    TimePattern.parse mktime s
      = .error (.HueException ("Unable to parse time string: ".toList ++ s)) := by
  unfold TimePattern.parse
  have hemp : s.isEmpty = false := by
    cases s with
    | nil => exact absurd rfl hne
    | cons c t => rfl
  have hnone1 : ¬ s = ['n', 'o', 'n', 'e'] := hnone
  simp [hemp, hnone1, hdig, hR, hP, hW, hT]

/-- Witness for `parse_rejects_unrecognized`: the string `Q123`. -/
theorem parse_rejects_unrecognized_witness :
    TimePattern.parse (fun _ => 0) "Q123".toList
      = .error (.HueException "Unable to parse time string: Q123".toList) :=
  parse_rejects_unrecognized (fun _ => 0) "Q123".toList (by decide) (by decide) (by decide)
    (by decide) (by decide) (by decide) (by decide)

/-- C8: a string of the form `W<ddd>/T<HH:MM:SS>/T<HH:MM:SS>` (decimal digits
in every field) parses to an interval, never to a recurring time; its weekday
mask is the number `ddd`, and its start and end are what `parseDuration`
reads from the two time fields.  In particular `W005/T08:00:00/T17:00:00` is
the interval with mask 5, start 8h and end 17h. -/
theorem parse_W_two_slashes_is_interval (mktime : Tm → Int) (ddd t1 t2 : List Char)
    (hddd : isWeekdayCode ddd = true) (h1 : isHMS t1 = true) (h2 : isHMS t2 = true) :
    (∃ st en, parseDuration t1 = .ok st ∧ parseDuration t2 = .ok en ∧
      TimePattern.parse mktime ('W' :: ddd ++ '/' :: 'T' :: t1 ++ '/' :: 'T' :: t2)
        = .ok (.interval { start := st, «end» := en, days := { bitmask := digitsValue ddd } })) ∧
    (∃ p, TimePattern.parse mktime ('W' :: ddd ++ '/' :: 'T' :: t1 ++ '/' :: 'T' :: t2) = .ok p ∧
      p.getType = .interval ∧ p.getType ≠ .recurring ∧
      p.asInterval.map (fun i => i.days.bitmask) = some (digitsValue ddd : Int)) ∧
    TimePattern.parse mktime "W005/T08:00:00/T17:00:00".toList
      = .ok (.interval { start := hours 8, «end» := hours 17, days := { bitmask := 5 } }) := by
  obtain ⟨x, y, z, ⟨hx, hy, hz⟩, rfl⟩ := isWeekdayCode_cases hddd
  obtain ⟨a, b, c, d, e, f, ⟨ha, hb, hc, hd, he, hf⟩, rfl⟩ := isHMS_cases h1
  obtain ⟨a1, b1, c1, d1, e1, f1, ⟨ha1, hb1, hc1, hd1, he1, hf1⟩, rfl⟩ := isHMS_cases h2
  have hp := parse_W_interval_chars mktime x y z a b c d e f a1 b1 c1 d1 e1 f1
    hx hy hz ha hb hc hd he hf ha1 hb1 hc1 hd1 he1 hf1
  have hst := parseDuration_hms a b c d e f ha hb hc hd hf
  have hen := parseDuration_hms a1 b1 c1 d1 e1 f1 ha1 hb1 hc1 hd1 hf1
  rw [hst, hen, ok_bind, ok_bind] at hp
  refine ⟨⟨_, _, hst, hen, hp⟩, ⟨_, hp, rfl, (fun h => by cases h), rfl⟩, rfl⟩

/-- Witness for `parse_W_two_slashes_is_interval`: the string
`W005/T08:00:00/T17:00:00`. -/
theorem parse_W_two_slashes_is_interval_witness :
    ∃ p, TimePattern.parse (fun _ => 0) "W005/T08:00:00/T17:00:00".toList = .ok p ∧
      p.getType = .interval ∧ p.getType ≠ .recurring ∧
      p.asInterval.map (fun i => i.days.bitmask) = some 5 :=
  (parse_W_two_slashes_is_interval (fun _ => 0) "005".toList "08:00:00".toList
    "17:00:00".toList (by decide) (by decide) (by decide)).2.1

/-- C9: for a non-negative duration `d`, `durationTo_hh_mm_ss` throws the
`HueException` "Duration parameter longer than 1 day" if and only if
`d > 24h`, and returns a string if and only if `d ≤ 24h`; exactly 24 hours
gives `24:00:00`; and `Timer::toString` throws that exception for every timer
whose expiry is greater than 24 hours, such as 25 hours. -/
theorem durationTo_hh_mm_ss_throws_iff (d : Int) (hd : 0 ≤ d) :
    (durationTo_hh_mm_ss d
        = .error (.HueException "Duration parameter longer than 1 day".toList)
      ↔ hours 24 < d) ∧
    ((∃ str, durationTo_hh_mm_ss d = .ok str) ↔ d ≤ hours 24) ∧
    durationTo_hh_mm_ss (hours 24) = .ok "24:00:00".toList ∧
    (∀ t : Timer, hours 24 < t.expires →
      t.toString = .error (.HueException "Duration parameter longer than 1 day".toList)) ∧
    Timer.toString { expires := hours 25, numExecutions := 1, variation := 0 }
      = .error (.HueException "Duration parameter longer than 1 day".toList) := by
  have hgt : ∀ e : Int, hours 24 < e → durationTo_hh_mm_ss e
      = .error (.HueException "Duration parameter longer than 1 day".toList) := by
    intro e he
    unfold durationTo_hh_mm_ss
    rw [if_pos he]
  refine ⟨⟨?_, hgt d⟩, ⟨?_, ?_⟩, by decide, ?_, by decide⟩
  · intro h
    by_contra hle
    rw [durationTo_hh_mm_ss_of_le d hd (not_lt.mp hle)] at h
    cases h
  · rintro ⟨str, hstr⟩
    by_contra hgt1
    rw [hgt d (not_le.mp hgt1)] at hstr
    cases hstr
  · intro hle
    exact ⟨_, durationTo_hh_mm_ss_of_le d hd hle⟩
  · intro t ht
    unfold Timer.toString
    rw [hgt t.expires ht]
    rfl

/-- Witness for `durationTo_hh_mm_ss_throws_iff`: the duration of 25 hours. -/
theorem durationTo_hh_mm_ss_throws_iff_witness :
    durationTo_hh_mm_ss (hours 25)
      = .error (.HueException "Duration parameter longer than 1 day".toList) :=
  (durationTo_hh_mm_ss_throws_iff (hours 25) (by decide)).1.2 (by decide)

/-- C10: for every `Weekdays` value with bitmask in 0..127, `toString` has
exactly three characters, namely the zero-padded decimal of the mask (mask 5
gives `005`), and `Weekdays::parse` of that string has the same bitmask. -/
theorem weekdays_toString_parse_round_trip (w : Weekdays)
    (h0 : 0 ≤ w.bitmask) (h1 : w.bitmask ≤ 127) :
    w.toString.length = 3 ∧
    w.toString = threeDigitDecimal w.bitmask.toNat ∧
    Weekdays.parse w.toString = .ok w ∧
    Weekdays.toString { bitmask := 5 } = "005".toList := by
  obtain ⟨m⟩ := w
  simp only at h0 h1
  interval_cases m <;> decide

/-- Witness for `weekdays_toString_parse_round_trip`: the mask 5. -/
theorem weekdays_toString_parse_round_trip_witness :
    Weekdays.parse (Weekdays.toString { bitmask := 5 }) = .ok { bitmask := 5 } :=
  (weekdays_toString_parse_round_trip { bitmask := 5 } (by decide) (by decide)).2.2.1

/-- C11 as stated fails on the code: `Weekdays::parse` accepts `128` and
returns the mask 128, so not every value the public operations produce has a
bitmask in 0..127. -/
theorem weekdays_parse_escapes_range :
    Weekdays.parse "128".toList = .ok { bitmask := 128 } ∧
    ¬ (∀ w : Weekdays, Weekdays.Produced w → 0 ≤ w.bitmask ∧ w.bitmask ≤ 127) := by
  refine ⟨by decide, fun h => ?_⟩
  have h128 := h { bitmask := 128 } (@Weekdays.Produced.parse "128".toList _ (by decide))
  exact absurd h128.2 (by decide)

/-- C11, amended: every `Weekdays` value built by `none()`, `all()`, the seven
single-day constructors and `unionWith` of such values has a bitmask in
0..127; `Weekdays::parse` installs the integer that `std::stoi` reads as the
mask, whatever it is. -/
theorem weekdays_constructed_in_range (w : Weekdays) (h : Weekdays.Constructed w) :
    (0 ≤ w.bitmask ∧ w.bitmask ≤ 127) ∧
    (∀ (s : List Char) (p : Weekdays), Weekdays.parse s = .ok p → stoi s = .ok p.bitmask) ∧
    (∀ (s : List Char) (n : Int), stoi s = .ok n → Weekdays.parse s = .ok { bitmask := n }) := by
  refine ⟨weekdays_constructed_bounds h, ?_, ?_⟩
  · intro s p hp
    rw [weekdays_parse_eq] at hp
    cases hs : stoi s with
    | error e => rw [hs] at hp; cases hp
    | ok n =>
      rw [hs, ok_bind] at hp
      cases hp
      rfl
  · intro s n hs
    rw [weekdays_parse_eq, hs, ok_bind]
    rfl

/-- Witness for `weekdays_constructed_in_range`: Monday united with Sunday. -/
theorem weekdays_constructed_in_range_witness :
    0 ≤ (Weekdays.monday.unionWith Weekdays.sunday).bitmask ∧
      (Weekdays.monday.unionWith Weekdays.sunday).bitmask ≤ 127 :=
  (weekdays_constructed_in_range (Weekdays.monday.unionWith Weekdays.sunday)
    (Weekdays.Constructed.unionWith (Weekdays.Constructed.day (by decide))
      (Weekdays.Constructed.day (by decide)))).1

/-- C12 as stated fails on the code: `-05`, `1x2` and ` 12` are not runs of
decimal digits, and `Weekdays::parse` returns the masks -5, 1 and 12 for
them. -/
theorem weekdays_parse_accepts_non_literals :
    isDigitRun "-05".toList = false ∧ Weekdays.parse "-05".toList = .ok { bitmask := -5 } ∧
    isDigitRun "1x2".toList = false ∧ Weekdays.parse "1x2".toList = .ok { bitmask := 1 } ∧
    isDigitRun " 12".toList = false ∧ Weekdays.parse " 12".toList = .ok { bitmask := 12 } := by
  decide

/-- C12, amended: `Weekdays::parse(s)` fails with `std::invalid_argument`
exactly when `s`, after leading whitespace and one optional sign, does not
begin with a decimal digit; when it does, the call fails with
`std::out_of_range` if the integer written there does not fit an `int`, and
otherwise returns that integer as the mask. -/
theorem weekdays_parse_fails_iff (s : List Char) :
    (Weekdays.parse s = .error .invalid_argument ↔ beginsWithDigit (afterSign s) = false) ∧
    (beginsWithDigit (afterSign s) = true →
      Weekdays.parse s = if leadingInteger s < -(2 ^ 31) ∨ leadingInteger s > 2 ^ 31 - 1
        then .error .out_of_range else .ok { bitmask := leadingInteger s }) := by
  constructor
  · rw [← stoi_invalid_iff, weekdays_parse_eq]
    cases hs : stoi s with
    | error e =>
      constructor
      · intro h; cases h; rfl
      · intro h; cases h; rfl
    | ok n =>
      constructor
      · intro h; cases h
      · intro h; cases h
  · intro hb
    rw [weekdays_parse_eq, stoi_of_beginsWithDigit s hb]
    split_ifs <;> rfl

/-- C13: `unionWith` is the bitwise OR of the two masks, and on masks in
0..127 it is commutative, associative and idempotent, with `none()` as
neutral and `all()` as absorbing element.  The method is `const` and takes its
argument by value: it is a function of the two values and changes neither. -/
theorem weekdays_unionWith_semilattice (a b c : Weekdays)
    (ha : 0 ≤ a.bitmask ∧ a.bitmask ≤ 127) (hb : 0 ≤ b.bitmask ∧ b.bitmask ≤ 127)
    (hc : 0 ≤ c.bitmask ∧ c.bitmask ≤ 127) :
    (∀ i : Nat, (a.unionWith b).bitmask.testBit i
      = (a.bitmask.testBit i || b.bitmask.testBit i)) ∧
    a.unionWith b = b.unionWith a ∧
    (a.unionWith b).unionWith c = a.unionWith (b.unionWith c) ∧
    a.unionWith a = a ∧
    Weekdays.none.unionWith a = a ∧
    Weekdays.all.unionWith a = Weekdays.all := by
  obtain ⟨x⟩ := a
  obtain ⟨y⟩ := b
  obtain ⟨z⟩ := c
  simp only at ha hb hc
  obtain ⟨m, rfl⟩ := Int.eq_ofNat_of_zero_le ha.1
  obtain ⟨n, rfl⟩ := Int.eq_ofNat_of_zero_le hb.1
  obtain ⟨k, rfl⟩ := Int.eq_ofNat_of_zero_le hc.1
  have hm : m ≤ 127 := by omega
  refine ⟨?_, ?_, ?_, ?_, ?_, ?_⟩
  · intro i
    simp only [Weekdays.unionWith]
    rw [Int.testBit_lor, Bool.or_comm]
  · simp only [Weekdays.unionWith, int_lor_natCast, Nat.lor_comm]
  · simp only [Weekdays.unionWith, int_lor_natCast, Nat.lor_assoc]
  · simp only [Weekdays.unionWith, int_lor_natCast, Nat.or_self]
  · show ({ bitmask := Int.lor ((m : Nat) : Int) ((0 : Nat) : Int) } : Weekdays) = _
    rw [int_lor_natCast, Nat.or_zero]
  · show ({ bitmask := Int.lor ((m : Nat) : Int) ((127 : Nat) : Int) } : Weekdays) = _
    rw [int_lor_natCast]
    interval_cases m <;> rfl

/-- Witness for `weekdays_unionWith_semilattice`: masks 5, 64 and 127. -/
theorem weekdays_unionWith_semilattice_witness :
    Weekdays.unionWith { bitmask := 5 } { bitmask := 64 }
      = Weekdays.unionWith { bitmask := 64 } { bitmask := 5 } :=
  (weekdays_unionWith_semilattice { bitmask := 5 } { bitmask := 64 } { bitmask := 127 }
    (by decide) (by decide) (by decide)).2.1

/-- C14: for a timer whose expiry and variation are whole seconds in
[0, 24h] and whose execution count `c` is 0, 1 or in 2..99, `Timer::toString`
returns the repetition prefix of `c`, then `PT` and `HH:MM:SS` of the expiry,
followed by `A` and `HH:MM:SS` of the variation exactly when the variation is
not zero. -/
theorem timer_toString_wire_grammar (k v : Nat) (c : Int) (hk : k ≤ 86400) (hv : v ≤ 86400)
    (hc : c = 0 ∨ c = 1 ∨ (2 ≤ c ∧ c ≤ 99)) :
    Timer.toString { expires := seconds k, numExecutions := c, variation := seconds v }
      = .ok (timerPrefix c ++ "PT".toList ++ HH_MM_SS k
          ++ (if v ≠ 0 then 'A' :: HH_MM_SS v else [])) := by
  unfold Timer.toString
  simp only [durationTo_hh_mm_ss_seconds k hk, durationTo_hh_mm_ss_seconds v hv, ok_bind, ne_eq,
    seconds_natCast_eq_zero]
  have hpre : (if ¬ c = 1 then
        (let result := ['R']
         let result :=
          if ¬ c = 0 then
            let s := to_string c
            (if s.length < 2 then result ++ ['0'] else result) ++ s
          else result
         result ++ ['/'])
      else []) = timerPrefix c := by
    rcases hc with rfl | rfl | ⟨h2, h99⟩
    · rfl
    · rfl
    · interval_cases c <;> rfl
  simp only [hpre]
  by_cases hv0 : v = 0
  · simp only [hv0, not_true_eq_false, if_false, List.append_nil]; rfl
  · simp only [hv0, not_false_eq_true, if_true]; rfl

/-- Witness for `timer_toString_wire_grammar`: five executions of a
30-minute timer with 5 minutes of variation. -/
theorem timer_toString_wire_grammar_witness :
    Timer.toString { expires := seconds 1800, numExecutions := 5, variation := seconds 300 }
      = .ok "R05/PT00:30:00A00:05:00".toList :=
  timer_toString_wire_grammar 1800 300 5 (by decide) (by decide) (by decide)

/-- C15: for an interval whose start and end are whole seconds in [0, 24h]
and whose weekday mask `m` is in 0..127, `TimeInterval::toString` returns `T`,
`HH:MM:SS` of the start, `/T` and `HH:MM:SS` of the end, preceded by `W`, the
three-digit decimal of `m` and `/` if and only if `m` is not 127. -/
theorem timeInterval_toString_wire_grammar (a b m : Nat) (ha : a ≤ 86400) (hb : b ≤ 86400)
    (hm : m ≤ 127) :
    TimeInterval.toString { start := seconds a, «end» := seconds b, days := { bitmask := m } }
      = .ok (weekdayPrefix m ++ 'T' :: HH_MM_SS a ++ "/T".toList ++ HH_MM_SS b) ∧
    (weekdayPrefix m = [] ↔ m = 127) ∧
    (m ≠ 127 → weekdayPrefix m = 'W' :: (threeDigitDecimal m ++ ['/'])) := by
  refine ⟨?_, ?_, ?_⟩
  · unfold TimeInterval.toString
    simp only [durationTo_hh_mm_ss_seconds a ha, durationTo_hh_mm_ss_seconds b hb, ok_bind,
      weekdays_toString_eq m hm]
    by_cases h127 : m = 127
    · subst h127; rfl
    · have hall : Weekdays.isAll { bitmask := (m : Int) } = false := by
        simp only [Weekdays.isAll, beq_eq_false_iff_ne, ne_eq]
        omega
      simp only [hall, weekdayPrefix, h127, if_false]
      rfl
  · unfold weekdayPrefix
    by_cases h127 : m = 127 <;> simp [h127]
  · intro h127
    simp [weekdayPrefix, h127]

/-- Witness for `timeInterval_toString_wire_grammar`: 08:00:00 to 17:00:00 on
the days of mask 5. -/
theorem timeInterval_toString_wire_grammar_witness :
    TimeInterval.toString { start := seconds 28800, «end» := seconds 61200, days := { bitmask := 5 } }
      = .ok "W005/T08:00:00/T17:00:00".toList :=
  (timeInterval_toString_wire_grammar 28800 61200 5 (by decide) (by decide) (by decide)).1

/-- C16: `PT00:30:00` parses to the timer with expiry 30 minutes, one
execution (not recurring) and zero variation, and `Timer::toString` of that
timer is `PT00:30:00` again. -/
theorem parse_timer_thirty_minutes :
    (∀ mktime : Tm → Int, TimePattern.parse mktime "PT00:30:00".toList
      = .ok (.timer { expires := minutes 30, numExecutions := 1, variation := 0 })) ∧
    Timer.isRecurring { expires := minutes 30, numExecutions := 1, variation := 0 } = false ∧
    Timer.toString { expires := minutes 30, numExecutions := 1, variation := 0 }
      = .ok "PT00:30:00".toList := by
  refine ⟨fun mktime => rfl, by decide, by decide⟩

/-- C17: `W127/T07:30:00A00:05:00` parses to a recurring time with daytime
7h30m, weekday mask 127 (for which `isAll` holds) and variation 5 minutes. -/
theorem parse_recurring_all_days :
    (∀ mktime : Tm → Int, TimePattern.parse mktime "W127/T07:30:00A00:05:00".toList
      = .ok (.recurring ⟨hours 7 + minutes 30, ⟨127⟩, minutes 5⟩)) ∧
    TimePattern.getType (.recurring ⟨hours 7 + minutes 30, ⟨127⟩, minutes 5⟩) = .recurring ∧
    Weekdays.isAll { bitmask := 127 } = true := by
  refine ⟨fun mktime => rfl, rfl, by decide⟩

/-- C18: `2024-06-01T12:00:00A00:10:00` parses to an absolute time with
variation 10 minutes, and the 19-character timestamp alone to an absolute time
with variation zero.  `AbsoluteTime::toString` returns the timestamp of the
base time alone when the variation is zero, and followed by `A` and the
formatted variation when it is not zero. -/
theorem absolute_time_jitter (mktime : Tm → Int) (localtime : Int → Tm) (a : AbsoluteTime)
    (ts : List Char) (hts : timepointToTimestamp localtime a.base = .ok ts) :
    (∃ base, TimePattern.parse mktime "2024-06-01T12:00:00A00:10:00".toList
      = .ok (.absolute { base := base, variation := minutes 10 })) ∧
    ("2024-06-01T12:00:00".toList.length = 19 ∧
      ∃ base, TimePattern.parse mktime "2024-06-01T12:00:00".toList
        = .ok (.absolute { base := base, variation := 0 })) ∧
    (a.variation = 0 → a.toString localtime = .ok ts) ∧
    (∀ hms, a.variation ≠ 0 → durationTo_hh_mm_ss a.variation = .ok hms →
      a.toString localtime = .ok (ts ++ 'A' :: hms)) ∧
    (∀ v : Nat, 0 < v → v ≤ 86400 → a.variation = seconds v →
      a.toString localtime = .ok (ts ++ 'A' :: HH_MM_SS v)) := by
  have hgen : ∀ hms, a.variation ≠ 0 → durationTo_hh_mm_ss a.variation = .ok hms →
      a.toString localtime = .ok (ts ++ 'A' :: hms) := by
    intro hms hv hd
    unfold AbsoluteTime.toString
    rw [hts, ok_bind, if_pos hv, hd, ok_bind]
    rfl
  refine ⟨⟨_, rfl⟩, ⟨rfl, _, rfl⟩, ?_, hgen, ?_⟩
  · intro hv
    unfold AbsoluteTime.toString
    rw [hts, ok_bind, if_neg (not_not.mpr hv)]
    rfl
  · intro v hv0 hv1 hv
    apply hgen
    · rw [hv]
      intro h0
      have := (seconds_natCast_eq_zero v).mp h0
      omega
    · rw [hv]
      exact durationTo_hh_mm_ss_seconds v hv1

/-- Witness for `absolute_time_jitter`: a base time whose local time is
2024-06-01 12:00:00, with 10 minutes of variation. -/
theorem absolute_time_jitter_witness :
    AbsoluteTime.toString (fun _ => ⟨0, 0, 12, 1, 5, 124, -1⟩) { base := 0, variation := seconds 600 }
      = .ok "2024-06-01T12:00:00A00:10:00".toList :=
  (absolute_time_jitter (fun _ => 0) (fun _ => ⟨0, 0, 12, 1, 5, 124, -1⟩)
    { base := 0, variation := seconds 600 } "2024-06-01T12:00:00".toList
    (by decide)).2.2.2.2 600 (by decide) (by decide) rfl

/-- C19: `TimePattern::parse` of the empty string and of `none` is the
undefined pattern, and a successful parse of any other string is not
undefined. -/
theorem parse_undefined_iff (mktime : Tm → Int) (s : List Char) (p : TimePattern)
    (h : TimePattern.parse mktime s = .ok p) :
    TimePattern.parse mktime [] = .ok .undefined ∧
    TimePattern.parse mktime "none".toList = .ok .undefined ∧
    (p.getType = .undefined ↔ s = [] ∨ s = "none".toList) := by
  refine ⟨rfl, rfl, ?_⟩
  by_cases hs : s = [] ∨ s = "none".toList
  · have hp : TimePattern.parse mktime s = .ok .undefined := by
      rcases hs with rfl | rfl <;> rfl
    rw [hp] at h
    cases h
    exact ⟨fun _ => hs, fun _ => rfl⟩
  · refine ⟨fun hu => absurd ?_ hs, fun h1 => absurd h1 hs⟩
    exfalso
    have hemp : ¬ (s.isEmpty = true ∨ s = "none".toList) := by
      intro h1
      rcases h1 with h1 | h1
      · exact hs (Or.inl (List.isEmpty_iff.mp h1))
      · exact hs (Or.inr h1)
    unfold TimePattern.parse at h
    rw [if_neg hemp] at h
    simp only [bind, Except.bind, pure, Except.pure] at h
    repeat' split at h
    all_goals first
      | (cases h; done)
      | (cases h; exact absurd hu (by simp [TimePattern.getType]))

/-- Witness for `parse_undefined_iff`: the timer string `PT00:30:00`. -/
theorem parse_undefined_iff_witness :
    TimePattern.getType (.timer { expires := minutes 30, numExecutions := 1, variation := 0 })
        = .undefined
      ↔ "PT00:30:00".toList = [] ∨ "PT00:30:00".toList = "none".toList :=
  (parse_undefined_iff (fun _ => 0) "PT00:30:00".toList
    (.timer { expires := minutes 30, numExecutions := 1, variation := 0 }) rfl).2.2

/-- C20: the tag of a `TimePattern` object names the member that is alive.  A
default-constructed object is undefined; an object constructed from a payload
has the matching type and the matching accessor returns that payload.  For a
valid source object `b`: copy assignment `a = b` to a valid object `a` (also
when `a` is `b` itself), and copy construction of a new object `a` from `b`
whatever the storage at `a` held before, leave at `a` an object equal to `b`
in type and payload, valid again, and change no other object. -/
theorem discriminant_matches_payload (mem : TimePattern.Store) (this other : Nat)
    (hother : (mem other).Valid) :
    (TimePattern.Object.default.getType = .undefined ∧ TimePattern.Object.default.Valid) ∧
    (∀ a : AbsoluteTime, (TimePattern.Object.ofAbsolute a).getType = .absolute ∧
      (TimePattern.Object.ofAbsolute a).asAbsolute = some a ∧
      (TimePattern.Object.ofAbsolute a).Valid) ∧
    (∀ r : RecurringTime, (TimePattern.Object.ofRecurring r).getType = .recurring ∧
      (TimePattern.Object.ofRecurring r).asRecurring = some r ∧
      (TimePattern.Object.ofRecurring r).Valid) ∧
    (∀ i : TimeInterval, (TimePattern.Object.ofInterval i).getType = .interval ∧
      (TimePattern.Object.ofInterval i).asInterval = some i ∧
      (TimePattern.Object.ofInterval i).Valid) ∧
    (∀ t : Timer, (TimePattern.Object.ofTimer t).getType = .timer ∧
      (TimePattern.Object.ofTimer t).asTimer = some t ∧
      (TimePattern.Object.ofTimer t).Valid) ∧
    ((mem this).Valid → ∃ mem1, TimePattern.operator_assign mem this other = some mem1 ∧
      mem1 this = mem other ∧ mem1 other = mem other ∧ (mem1 this).Valid ∧
      ∀ q, q ≠ this → mem1 q = mem q) ∧
    (this ≠ other → ∃ mem1, TimePattern.copy_construct mem this other = some mem1 ∧
      mem1 this = mem other ∧ mem1 other = mem other ∧ (mem1 this).Valid ∧
      ∀ q, q ≠ this → mem1 q = mem q) := by
  refine ⟨⟨rfl, rfl⟩, fun a => ⟨rfl, rfl, rfl⟩, fun r => ⟨rfl, rfl, rfl⟩,
    fun i => ⟨rfl, rfl, rfl⟩, fun t => ⟨rfl, rfl, rfl⟩, ?_, ?_⟩
  · intro hthis
    by_cases hne : this = other
    · refine ⟨mem, ?_, ?_, rfl, hthis, fun q _ => rfl⟩
      · unfold TimePattern.operator_assign
        rw [if_pos hne]
      · rw [hne]
    · refine ⟨_, operator_assign_of_ne mem this other hne hthis hother, ?_, ?_, ?_, ?_⟩
      · exact Function.update_same _ _ _
      · exact Function.update_noteq (Ne.symm hne) _ _
      · rw [Function.update_same]; exact hother
      · intro q hq
        exact Function.update_noteq hq _ _
  · intro hne
    have hfresh : (Function.update mem this
        ({ type := .undefined, storage := .undefined } : TimePattern.Object) this).Valid := by
      rw [Function.update_same]; rfl
    have hsrc : Function.update mem this
        ({ type := .undefined, storage := .undefined } : TimePattern.Object) other = mem other :=
      Function.update_noteq (Ne.symm hne) _ _
    have hassign := operator_assign_of_ne _ this other hne hfresh (by rw [hsrc]; exact hother)
    rw [hsrc] at hassign
    refine ⟨_, hassign, ?_, ?_, ?_, ?_⟩
    · exact Function.update_same _ _ _
    · rw [Function.update_noteq (Ne.symm hne), Function.update_noteq (Ne.symm hne)]
    · rw [Function.update_same]; exact hother
    · intro q hq
      rw [Function.update_noteq hq, Function.update_noteq hq]

/-- Witness for `discriminant_matches_payload`: a store with a 30-minute timer
at address 0.  The undefined object at address 1 is assigned from it; and an
object is copy-constructed from it at address 1 over storage that holds the
tag `timer` with no timer alive. -/
theorem discriminant_matches_payload_witness :
    (∃ mem1, TimePattern.operator_assign
        (fun n => if n = 0 then TimePattern.Object.ofTimer ⟨minutes 30, 1, 0⟩
          else TimePattern.Object.default) 1 0 = some mem1 ∧
      mem1 1 = TimePattern.Object.ofTimer ⟨minutes 30, 1, 0⟩ ∧
      mem1 0 = TimePattern.Object.ofTimer ⟨minutes 30, 1, 0⟩ ∧ (mem1 1).Valid ∧
      ∀ q, q ≠ 1 → mem1 q = (fun n => if n = 0 then TimePattern.Object.ofTimer ⟨minutes 30, 1, 0⟩
          else TimePattern.Object.default) q) ∧
    (¬ (⟨.timer, .undefined⟩ : TimePattern.Object).Valid ∧
      ∃ mem1, TimePattern.copy_construct
        (fun n => if n = 0 then TimePattern.Object.ofTimer ⟨minutes 30, 1, 0⟩
          else ⟨.timer, .undefined⟩) 1 0 = some mem1 ∧
      mem1 1 = TimePattern.Object.ofTimer ⟨minutes 30, 1, 0⟩ ∧
      mem1 0 = TimePattern.Object.ofTimer ⟨minutes 30, 1, 0⟩ ∧ (mem1 1).Valid ∧
      ∀ q, q ≠ 1 → mem1 q = (fun n => if n = 0 then TimePattern.Object.ofTimer ⟨minutes 30, 1, 0⟩
          else ⟨.timer, .undefined⟩) q) :=
  ⟨(discriminant_matches_payload
      (fun n => if n = 0 then TimePattern.Object.ofTimer ⟨minutes 30, 1, 0⟩
        else TimePattern.Object.default) 1 0 rfl).2.2.2.2.2.1 rfl,
    (fun h => by cases h),
    (discriminant_matches_payload
      (fun n => if n = 0 then TimePattern.Object.ofTimer ⟨minutes 30, 1, 0⟩
        else ⟨.timer, .undefined⟩) 1 0 rfl).2.2.2.2.2.2 (by decide)⟩

/-- C21 as stated fails on the code: the 30-minute timer with 100 executions
is written as `R100/PT00:30:00`, and parsing that text gives a timer with 10
executions, because the count is read from two characters. -/
theorem timer_count_100_round_trip :
    Timer.toString { expires := minutes 30, numExecutions := 100, variation := 0 }
      = .ok "R100/PT00:30:00".toList ∧
    (∀ mktime : Tm → Int, TimePattern.parse mktime "R100/PT00:30:00".toList
      = .ok (.timer { expires := minutes 30, numExecutions := 10, variation := 0 })) ∧
    Timer.getNumberOfExecutions { expires := minutes 30, numExecutions := 10, variation := 0 }
      ≠ 100 := by
  refine ⟨by decide, fun mktime => rfl, by decide⟩

/-- C22, evaluated on the code: `Sensor::setStateAttribute` sends to `/state`
an object whose single member is named `key`, whatever key the caller gave;
for the key `presence` and the value `true` the body is `{"key": true}`, not
`{"presence": true}`. -/
theorem setStateAttribute_ignores_key :
    (∀ (key : List Char) (value : Json),
      (Sensor.setStateAttribute key value).subPath = "/state".toList ∧
      (Sensor.setStateAttribute key value).body = Json.object [("key".toList, value)]) ∧
    (Sensor.setStateAttribute "presence".toList (Json.bool true)).body
      ≠ Json.object [("presence".toList, Json.bool true)] := by
  refine ⟨fun key value => ⟨rfl, rfl⟩, ?_⟩
  intro h
  simp only [Sensor.setStateAttribute] at h
  injection h with h1
  injection h1 with h2 _
  injection h2 with h3 _
  exact absurd h3 (by decide)

/-- C21, amended: for every execution count `c` in 1..99 and every timer with
that count, an expiry of whole minutes below 24 hours and zero variation,
`Timer::toString` returns a string and `TimePattern::parse` of that string is
a timer with `c` executions (and the same expiry and zero variation). -/
theorem timer_count_round_trip (mktime : Tm → Int) (c : Int) (k : Nat)
    (hc1 : 1 ≤ c) (hc2 : c ≤ 99) (hk : k < 1440) :
    ∃ str t, Timer.toString { expires := minutes k, numExecutions := c, variation := 0 } = .ok str ∧
      TimePattern.parse mktime str = .ok (.timer t) ∧
      t.getNumberOfExecutions = c ∧ t.getExpiryTime = minutes k ∧ t.getRandomVariation = 0 := by
  obtain ⟨a, b, ha, hb, hab, vab, _⟩ := twoDigitDecimal_spec (60 * k / 3600) (by omega)
  obtain ⟨m1, m2, hm1, hm2, hmm, vmm, _⟩ := twoDigitDecimal_spec (60 * k / 60 % 60) (by omega)
  obtain ⟨e, f, he, hf, hef, _, vf⟩ := twoDigitDecimal_spec (60 * k % 60) (by omega)
  have hH : HH_MM_SS (60 * k) = [a, b, ':', m1, m2, ':', e, f] := by
    simp only [HH_MM_SS, hab, hmm, hef]
    rfl
  have hpd := parseDuration_hms a b m1 m2 e f ha hb hm1 hm2 hf
  have hval : hours ((digitsValue [a, b] : Nat) : Int) + minutes ((digitsValue [m1, m2] : Nat) : Int)
      + seconds ((digitsValue [f] : Nat) : Int) = minutes (k : Int) := by
    rw [vab, vmm, vf, hours_eq, minutes_eq, seconds_eq, minutes_eq]
    push_cast
    omega
  rw [hval] at hpd
  have hstr := timer_toString_minutes k c hk hc1 hc2
  rw [hH] at hstr
  by_cases h1 : c = 1
  · subst h1
    have hp := parse_timer_P_chars mktime a b m1 m2 e f ha hb hm1 hm2 he hf
    rw [hpd, ok_bind] at hp
    exact ⟨_, _, hstr, hp, rfl, rfl, rfl⟩
  · obtain ⟨x, y, hx, hy, hxy, vxy, _⟩ := twoDigitDecimal_spec c.toNat (by omega)
    have hpre : timerPrefix c = 'R' :: x :: y :: ['/'] := by
      unfold timerPrefix
      rw [if_neg h1, if_neg (by omega), hxy]
      rfl
    rw [hpre] at hstr
    have hp := parse_timer_R_chars mktime x y a b m1 m2 e f hx hy ha hb hm1 hm2 he hf
    rw [hpd, ok_bind] at hp
    refine ⟨_, _, hstr, hp, ?_, rfl, rfl⟩
    show ((digitsValue [x, y] : Nat) : Int) = c
    rw [vxy]
    omega

/-- Witness for `timer_count_round_trip`: 42 executions of a 90-minute
timer. -/
theorem timer_count_round_trip_witness :
    ∃ str t, Timer.toString { expires := minutes 90, numExecutions := 42, variation := 0 } = .ok str ∧
      TimePattern.parse (fun _ => 0) str = .ok (.timer t) ∧
      t.getNumberOfExecutions = 42 ∧ t.getExpiryTime = minutes 90 ∧ t.getRandomVariation = 0 :=
  timer_count_round_trip (fun _ => 0) 42 90 (by decide) (by decide) (by decide)

end hueplusplus
